import Mathlib

/-!
# codex-router: verification of the translator, streaming bridge, registry and health code

Shallow embedding of the codex-router gateway's transformation core:

* canonical id namespacing (`generateResponseId`, `generateMessageId`, `generateCallId`
  from `internal/translator/src/types/common.ts`),
* finish-reason → status derivation (TypeScript `FINISH_REASON_MAPPING` /
  `transformResponse`, and the Go `mapFinishReason` that appears both in the
  proxy handler and in `ZaiProvider`),
* the TypeScript response/request transformers and the stream transformer
  (`StreamTransformer`),
* the Go proxy streaming bridge (`ProxyHandler.transformStream`),
* the Go provider registry (`Registry.updateOrder`, `Registry.GetByModel`,
  `BaseProvider.SupportsModel`) and `BaseProvider.HealthCheck`.

JavaScript/Go runtime facts used by the embedding and recorded next to each
definition: JS `Map` preserves insertion order; JS truthiness of strings is
non-emptiness; absent JSON fields are `Option.none`; Go `time.Now()`-derived
identifiers are passed in as parameters.
-/

/-! ## String helpers

`leadsWith p s` models `String.prototype.startsWith` / `strings.HasPrefix`
on the character lists of the two strings. -/

def leadsWith : List Char → List Char → Bool
  | [], _ => true
  | _ :: _, [] => false
  | c :: p, d :: s => c == d && leadsWith p s

/-- Drop the first `n` characters of a string (models `s.substring(n)` /
the result of replacing a length-`n` leading pattern). -/
def strDrop (s : String) (n : Nat) : String := ⟨s.data.drop n⟩

/-! ## Canonical id namespacing — `internal/translator/src/types/common.ts`

Each generator takes the backend-supplied id.  The TypeScript functions draw a
random id when called with a missing/empty argument; that branch performs I/O
(`Math.random`) and is represented at each call site by a caller-supplied
fresh string. -/

/-- `generateResponseId` for a provided (truthy) backend id:
keep the id if it already starts with `resp_`, otherwise put `resp_` in front. -/
def generateResponseId (originalId : String) : String :=
  if leadsWith "resp_".data originalId.data then originalId else "resp_" ++ originalId

/-- `generateMessageId` for a provided (truthy) backend id. -/
def generateMessageId (originalId : String) : String :=
  if leadsWith "msg_".data originalId.data then originalId else "msg_" ++ originalId

/-- `generateCallId` for a provided (truthy) backend id: an id starting with
`call_` has that first occurrence replaced by `fc_` (JS
`originalId.replace('call_', 'fc_')`; since the id starts with `call_`, the
first occurrence is the leading one, so this is prefix substitution), any
other id gets `fc_` in front. -/
def generateCallId (originalId : String) : String :=
  if leadsWith "call_".data originalId.data then "fc_" ++ strDrop originalId 5
  else "fc_" ++ originalId

/-! ## Finish-reason → status tables -/

/-- `FINISH_REASON_MAPPING` from `common.ts`, as a partial lookup. -/
def FINISH_REASON_MAPPING (reason : String) : Option String :=
  if reason = "stop" then some "completed"
  else if reason = "length" then some "incomplete"
  else if reason = "tool_calls" then some "completed"
  else if reason = "content_filter" then some "failed"
  else none

/-- Status derivation of the TypeScript non-streaming `transformResponse`
(`response.ts` lines 53–56): `choice.finish_reason ?
(FINISH_REASON_MAPPING[choice.finish_reason] || 'completed') : 'completed'`.
All mapped values are non-empty strings, so JS `||` is `Option.getD`. -/
def tsResponseStatus (finishReason : Option String) : String :=
  match finishReason with
  | some r => (FINISH_REASON_MAPPING r).getD "completed"
  | none => "completed"

/-- `mapFinishReason` — the Go switch that appears verbatim both in the proxy
handler (`handlers` package) and as `ZaiProvider.mapFinishReason` in
`internal/providers/base.go`: `stop`/`tool_calls` → `completed`,
`length` → `incomplete`, everything else → `failed`. -/
def mapFinishReason (reason : String) : String :=
  if reason = "stop" then "completed"
  else if reason = "length" then "incomplete"
  else if reason = "tool_calls" then "completed"
  else "failed"

/-! ## TypeScript response transformer — `transformers/response.ts` -/

/-- A content block of a backend chat message (`{ type, text? }`). -/
structure BlockT where
  type : String
  text : Option String
deriving DecidableEq

/-- `ChatMessage.content`: a string or a list of blocks. -/
inductive ContentValT
  | str (s : String)
  | blocks (bs : List BlockT)
deriving DecidableEq

/-- A backend tool call (`{ id, type: 'function', function: { name, arguments } }`),
with the constant `type` tag and the `function` nesting flattened. -/
structure ToolCallT where
  id : String
  name : String
  arguments : String
deriving DecidableEq

structure ChatMsgT where
  content : Option ContentValT
  tool_calls : Option (List ToolCallT)
deriving DecidableEq

structure ChatChoiceT where
  message : ChatMsgT
  finish_reason : Option String
deriving DecidableEq

structure UsageT where
  prompt_tokens : Nat
  completion_tokens : Nat
  total_tokens : Nat
deriving DecidableEq

structure ChatRespT where
  id : String
  created : Nat
  model : String
  choices : List ChatChoiceT
  usage : Option UsageT
deriving DecidableEq

/-- The text fragments one block contributes in `extractContentText`:
a `type: 'text'` block contributes its text when truthy; any other block with
a string `text` field contributes it as-is. -/
def blockTexts (b : BlockT) : List String :=
  if b.type = "text" then
    match b.text with
    | some t => if t = "" then [] else [t]
    | none => []
  else
    match b.text with
    | some t => [t]
    | none => []

/-- `extractContentText` (`response.ts`): a string passes through, blocks are
scanned and their texts joined with no separator. -/
def extractContentText : ContentValT → String
  | .str s => s
  | .blocks bs => String.join (List.flatten (bs.map blockTexts))

/-- Canonical output content: `output_text` (its constant empty `annotations`
array is omitted) or `function_call`. -/
inductive ContentOutT
  | outputText (text : String)
  | functionCall (id name arguments : String)
deriving DecidableEq

structure MessageOutT where
  id : String
  status : String
  role : String
  content : List ContentOutT
deriving DecidableEq

structure UsageRT where
  input_tokens : Nat
  output_tokens : Nat
  total_tokens : Nat
deriving DecidableEq

structure ResponsesRespT where
  id : String
  object : String
  created_at : Nat
  status : String
  model : String
  output : List MessageOutT
  usage : Option UsageRT
  metadataOriginalId : Option String
deriving DecidableEq

/-- `transformChoiceToOutputItems`: one `message` item; a truthy message
content (non-empty string, or any block list) contributes an `output_text`
block, then each tool call a `function_call` block with its id translated by
`generateCallId`. -/
def transformChoiceToOutputItems (choice : ChatChoiceT) (messageId : String) :
    List MessageOutT :=
  let textContent : List ContentOutT :=
    match choice.message.content with
    | none => []
    | some (.str s) =>
        if s = "" then [] else [.outputText (extractContentText (.str s))]
    | some (.blocks bs) => [.outputText (extractContentText (.blocks bs))]
  let callContent : List ContentOutT :=
    match choice.message.tool_calls with
    | some tcs =>
        if tcs.length > 0 then
          tcs.map (fun tc => .functionCall (generateCallId tc.id) tc.name tc.arguments)
        else []
    | none => []
  [⟨messageId, "completed", "assistant", textContent ++ callContent⟩]

def transformUsage (u : UsageT) : UsageRT :=
  ⟨u.prompt_tokens, u.completion_tokens, u.total_tokens⟩

/-- `transformResponse` (`response.ts`): fails on zero choices, otherwise
builds the canonical response from the first choice.  `freshRespId` and
`freshMsgId` stand for the random draws used when the backend id is falsy and
for the fresh message id. -/
def transformResponse (freshRespId freshMsgId : String) (includeMetadata : Bool)
    (response : ChatRespT) : Except String ResponsesRespT :=
  match response.choices.head? with
  | none => .error "No choices in Chat Completions response"
  | some choice =>
    let responseId :=
      if response.id = "" then "resp_" ++ freshRespId else generateResponseId response.id
    let messageId := "msg_" ++ freshMsgId
    .ok { id := responseId, object := "response", created_at := response.created,
          status := tsResponseStatus choice.finish_reason, model := response.model,
          output := transformChoiceToOutputItems choice messageId,
          usage := response.usage.map transformUsage,
          metadataOriginalId :=
            if includeMetadata ∧ response.id ≠ "" then some response.id else none }

/-! ## Go proxy non-streaming response transformer —
`ProxyHandler.transformResponse` (handlers package) -/

/-- A backend chat message as the Go proxy reads it.  The source also checks
for a `tool_calls` array but its transformation is an unimplemented TODO, so
the field has no effect and is omitted here. -/
structure GoChatMsg where
  content : Option String
deriving DecidableEq

structure GoChatChoice where
  message : Option GoChatMsg
  finish_reason : Option String
deriving DecidableEq

structure GoUsage where
  prompt_tokens : Int
  completion_tokens : Int
  total_tokens : Int
deriving DecidableEq

structure GoChatResp where
  choices : List GoChatChoice
  usage : Option GoUsage
  model : Option String
deriving DecidableEq

structure GoProxyMsgItem where
  id : String
  status : String
  role : String
  contentTexts : List String
deriving DecidableEq

/-- The Go proxy's canonical response.  `output` is `none` when the source
never sets the `"output"` key (empty `choices`). -/
structure GoProxyResponsesResp where
  id : String
  object : String
  created_at : Int
  status : String
  output : Option (List GoProxyMsgItem)
  usage : Option GoUsage
  model : Option String
deriving DecidableEq

/-- `ProxyHandler.transformResponse`: status starts as `"completed"` and is
overwritten from `finish_reason` via `mapFinishReason` only when a first
choice exists and carries one.  `freshId`/`freshId2` stand for the two
`time.Now().UnixNano()` draws, `nowUnix` for `time.Now().Unix()`. -/
def goProxyTransformResponse (freshId freshId2 : String) (nowUnix : Int)
    (resp : GoChatResp) : GoProxyResponsesResp :=
  let base : GoProxyResponsesResp :=
    { id := "resp_" ++ freshId, object := "response", created_at := nowUnix,
      status := "completed", output := none, usage := none, model := none }
  let withChoice :=
    match resp.choices.head? with
    | none => base
    | some choice =>
      let output : List GoProxyMsgItem :=
        match choice.message with
        | none => []
        | some message =>
          [{ id := "msg_" ++ freshId2, status := "completed", role := "assistant",
             contentTexts := match message.content with
                             | some s => [s]
                             | none => [] }]
      let st := match choice.finish_reason with
                | some r => mapFinishReason r
                | none => "completed"
      { base with output := some output, status := st }
  { withChoice with usage := resp.usage, model := resp.model }

/-! ## `ZaiProvider.TransformResponse` — `internal/providers/base.go` -/

/-- Stand-in for a JSON object payload passed through unmodified
(Go `map[string]interface` values such as tool-call arguments). -/
abbrev JsonObj := List (String × String)

structure ZaiInToolCall where
  id : String
  name : String
  arguments : JsonObj
deriving DecidableEq

structure ZaiChatMsg where
  content : Option String
  tool_calls : Option (List ZaiInToolCall)
deriving DecidableEq

structure ZaiChatChoice where
  message : Option ZaiChatMsg
  finish_reason : Option String
deriving DecidableEq

structure ZaiChatResp where
  choices : List ZaiChatChoice
  usage : Option GoUsage
deriving DecidableEq

structure ZaiFunctionCall where
  name : String
  arguments : JsonObj
deriving DecidableEq

structure ZaiToolCall where
  id : String
  type : String
  function : ZaiFunctionCall
deriving DecidableEq

structure ZaiContentBlock where
  type : String
  text : String
deriving DecidableEq

structure ZaiOutputItem where
  type : String
  role : String
  content : List ZaiContentBlock
  toolCalls : List ZaiToolCall
deriving DecidableEq

structure ZaiUsageOut where
  inputTokens : Int
  outputTokens : Int
  totalTokens : Int
deriving DecidableEq

structure ZaiResponsesResp where
  id : String
  object : String
  createdAt : Int
  status : String
  output : List ZaiOutputItem
  usage : Option ZaiUsageOut
deriving DecidableEq

/-- `ZaiProvider.TransformResponse`: never consults `finish_reason` (status is
always `"completed"`) and returns a response — not an error — even when
`choices` is empty.  `nowNano` stands for the `time.Now().UnixNano()` digits in
the generated id, `nowUnix` for `time.Now().Unix()`. -/
def zaiTransformResponse (nowNano : String) (nowUnix : Int) (resp : ZaiChatResp) :
    Except String ZaiResponsesResp :=
  let base : ZaiResponsesResp :=
    { id := "resp_" ++ nowNano, object := "response", createdAt := nowUnix,
      status := "completed", output := [], usage := none }
  let withChoice :=
    match resp.choices.head? with
    | none => base
    | some choice =>
      let item0 : ZaiOutputItem :=
        { type := "message", role := "assistant", content := [], toolCalls := [] }
      let item1 :=
        match choice.message with
        | none => item0
        | some message =>
          let withText :=
            match message.content with
            | some s =>
                { item0 with content :=
                    item0.content ++ [({ type := "output_text", text := s } : ZaiContentBlock)] }
            | none => item0
          match message.tool_calls with
          | some tcs =>
              { withText with toolCalls := withText.toolCalls ++ tcs.map (fun (tc : ZaiInToolCall) =>
                  ({ id := tc.id, type := "function",
                     function := { name := tc.name, arguments := tc.arguments } } : ZaiToolCall)) }
          | none => withText
      { base with output := base.output ++ [item1] }
  .ok { withChoice with
        usage := resp.usage.map (fun (u : GoUsage) =>
          ({ inputTokens := u.prompt_tokens, outputTokens := u.completion_tokens,
             totalTokens := u.total_tokens } : ZaiUsageOut)) }

/-! ## Go streaming bridge — `ProxyHandler.transformStream` (handlers package)

The reader loop consumes SSE lines.  A line is relevant only when, after
trimming, it is a `data:` line; its payload is either the literal `[DONE]`
sentinel, a JSON chunk, or malformed JSON (skipped).  `Frame` records the
parse outcome of one line; blank lines, comment lines and `event:` lines are
`Frame.other`.  The `resp_<nano>`/`msg_<nano>` identifiers are parameters. -/

/-- `delta` object of one streamed choice (only `content` is read by the Go
bridge; a non-string or missing `content` is `none`). -/
structure GoDelta where
  content : Option String
deriving DecidableEq

/-- One entry of a chunk's `choices` array (`delta` may be absent or not an
object, in which case the choice is skipped). -/
structure GoChoice where
  delta : Option GoDelta
deriving DecidableEq

/-- A parsed Chat Completions chunk as the Go bridge reads it: `created` (a
JSON number, default 0) and `model` (default `""`) are only used for the
first chunk's `response.created`/`response.in_progress` events. -/
structure GoChunk where
  created : Option Int
  model : Option String
  choices : List GoChoice
deriving DecidableEq

/-- The parse outcome of one line read from the backend stream. -/
inductive Frame
  | other
  | malformed
  | done
  | chunk (ck : GoChunk)
deriving DecidableEq

/-- The `output` item embedded in `response.output_item.done` /
`response.completed` payloads (its constant empty `annotations` arrays are
omitted; `contentTexts` lists the texts of its `output_text` parts). -/
structure GoOutItem where
  id : String
  status : String
  role : String
  contentTexts : List String
deriving DecidableEq

/-- The canonical SSE events the Go bridge emits.  Every event payload in the
source carries a `sequence_number`; it is the first argument of every
constructor. -/
inductive GoEvent
  | created (seq : Nat) (rid : String) (created_at : Int) (model : String)
  | inProgress (seq : Nat) (rid : String) (created_at : Int) (model : String)
  | outputItemAdded (seq : Nat) (iid : String)
  | contentPartAdded (seq : Nat) (iid : String)
  | outputTextDelta (seq : Nat) (iid : String) (delta : String)
  | outputTextDone (seq : Nat) (iid : String) (text : String)
  | contentPartDone (seq : Nat) (iid : String) (text : String)
  | outputItemDone (seq : Nat) (item : GoOutItem)
  | responseCompleted (seq : Nat) (rid : String) (output : List GoOutItem)
  | responseDone (seq : Nat)
deriving DecidableEq

/-- The `sequence_number` carried by an event. -/
def GoEvent.seq : GoEvent → Nat
  | .created n _ _ _ => n
  | .inProgress n _ _ _ => n
  | .outputItemAdded n _ => n
  | .contentPartAdded n _ => n
  | .outputTextDelta n _ _ => n
  | .outputTextDone n _ _ => n
  | .contentPartDone n _ _ => n
  | .outputItemDone n _ => n
  | .responseCompleted n _ _ => n
  | .responseDone n => n

/-- The event type (the `event:` line / `type` field). -/
inductive GoKind
  | created
  | inProgress
  | outputItemAdded
  | contentPartAdded
  | outputTextDelta
  | outputTextDone
  | contentPartDone
  | outputItemDone
  | responseCompleted
  | responseDone
deriving DecidableEq

def GoEvent.kind : GoEvent → GoKind
  | .created .. => .created
  | .inProgress .. => .inProgress
  | .outputItemAdded .. => .outputItemAdded
  | .contentPartAdded .. => .contentPartAdded
  | .outputTextDelta .. => .outputTextDelta
  | .outputTextDone .. => .outputTextDone
  | .contentPartDone .. => .contentPartDone
  | .outputItemDone .. => .outputItemDone
  | .responseCompleted .. => .responseCompleted
  | .responseDone .. => .responseDone

/-- The mutable locals of `transformStream`'s reader loop. -/
structure GoState where
  sentCreated : Bool
  sentOutputItemAdded : Bool
  sentContentPartAdded : Bool
  sequenceNumber : Nat
  fullText : String
deriving DecidableEq

def initGoState : GoState :=
  { sentCreated := false, sentOutputItemAdded := false,
    sentContentPartAdded := false, sequenceNumber := 0, fullText := "" }

/-- Handling of one non-empty `delta.content` string: emit
`response.output_item.added` and `response.content_part.added` once each
(guarded by the two flags), append the fragment to `fullText`, then emit the
`response.output_text.delta` event carrying only the fragment. -/
def processContent (iid : String) (st : GoState) (content : String) :
    GoState × List GoEvent :=
  let itemStep :=
    if st.sentOutputItemAdded then (st, ([] : List GoEvent))
    else ({ st with
            sentOutputItemAdded := true,
            sequenceNumber := st.sequenceNumber + 1 },
          [GoEvent.outputItemAdded st.sequenceNumber iid])
  let st1 := itemStep.1
  let partStep :=
    if st1.sentContentPartAdded then (st1, ([] : List GoEvent))
    else ({ st1 with
            sentContentPartAdded := true,
            sequenceNumber := st1.sequenceNumber + 1 },
          [GoEvent.contentPartAdded st1.sequenceNumber iid])
  let st2 := partStep.1
  let st3 := { st2 with fullText := st2.fullText ++ content }
  ({ st3 with sequenceNumber := st3.sequenceNumber + 1 },
   itemStep.2 ++ partStep.2 ++ [GoEvent.outputTextDelta st3.sequenceNumber iid content])

/-- One entry of the chunk's `choices` array: only a present `delta` object
with a non-empty string `content` produces events. -/
def processChoice (iid : String) (st : GoState) (c : GoChoice) :
    GoState × List GoEvent :=
  match c.delta with
  | none => (st, [])
  | some d =>
    match d.content with
    | none => (st, [])
    | some content =>
      if content = "" then (st, []) else processContent iid st content

def processChoices (iid : String) : GoState → List GoChoice → GoState × List GoEvent
  | st, [] => (st, [])
  | st, c :: cs =>
    let first := processChoice iid st c
    let rest := processChoices iid first.1 cs
    (rest.1, first.2 ++ rest.2)

/-- Handling of one successfully parsed chunk: on the very first one, emit
`response.created` then `response.in_progress` and set `sentCreated`; then
walk the `choices`. -/
def processChunk (rid iid : String) (st : GoState) (ck : GoChunk) :
    GoState × List GoEvent :=
  let createdStep :=
    if st.sentCreated then (st, ([] : List GoEvent))
    else ({ st with
            sentCreated := true, sequenceNumber := st.sequenceNumber + 2 },
          [GoEvent.created st.sequenceNumber rid (ck.created.getD 0) (ck.model.getD ""),
           GoEvent.inProgress (st.sequenceNumber + 1) rid (ck.created.getD 0)
             (ck.model.getD "")])
  let choicesStep := processChoices iid createdStep.1 ck.choices
  (choicesStep.1, createdStep.2 ++ choicesStep.2)

/-- The `data == "[DONE]"` branch: `response.output_text.done` only when a
content part was opened and text was accumulated, `response.content_part.done`
when a part was opened, `response.output_item.done` when the item was opened —
in this order — then always `response.completed` (whose hard-coded output item
has an empty `content` array in the source) and the final `response.done`. -/
def finalizeStreamGo (rid iid : String) (st : GoState) : List GoEvent :=
  let textStep :=
    if st.sentContentPartAdded ∧ st.fullText ≠ "" then
      (([GoEvent.outputTextDone st.sequenceNumber iid st.fullText] : List GoEvent),
       st.sequenceNumber + 1)
    else ([], st.sequenceNumber)
  let partStep :=
    if st.sentContentPartAdded then
      (([GoEvent.contentPartDone textStep.2 iid st.fullText] : List GoEvent),
       textStep.2 + 1)
    else ([], textStep.2)
  let itemStep :=
    if st.sentOutputItemAdded then
      (([GoEvent.outputItemDone partStep.2
           ⟨iid, "completed", "assistant", [st.fullText]⟩] : List GoEvent),
       partStep.2 + 1)
    else ([], partStep.2)
  textStep.1 ++ partStep.1 ++ itemStep.1 ++
    [GoEvent.responseCompleted itemStep.2 rid [⟨iid, "completed", "assistant", []⟩],
     GoEvent.responseDone (itemStep.2 + 1)]

/-- The reader loop of `ProxyHandler.transformStream`: skip irrelevant and
malformed lines, process parsed chunks, and on the `[DONE]` sentinel finalize
and stop (`break`). -/
def transformStreamGo (rid iid : String) (st : GoState) : List Frame → List GoEvent
  | [] => []
  | Frame.other :: rest => transformStreamGo rid iid st rest
  | Frame.malformed :: rest => transformStreamGo rid iid st rest
  | Frame.done :: _ => finalizeStreamGo rid iid st
  | Frame.chunk ck :: rest =>
    let step := processChunk rid iid st ck
    step.2 ++ transformStreamGo rid iid step.1 rest

/-- The state of the loop locals after consuming a list of frames that
contains no `[DONE]` sentinel. -/
def stateAfterGo (rid iid : String) : GoState → List Frame → GoState
  | st, [] => st
  | st, Frame.chunk ck :: rest => stateAfterGo rid iid (processChunk rid iid st ck).1 rest
  | st, _ :: rest => stateAfterGo rid iid st rest

/-- The `delta` payloads of the `response.output_text.delta` events in a list. -/
def deltaTexts (evs : List GoEvent) : List String :=
  evs.filterMap fun e =>
    match e with
    | .outputTextDelta _ _ d => some d
    | _ => none

/-- The `response.completed` payload's output items of an event
(`[]` for every other event). -/
def completedOutput : GoEvent → List GoOutItem
  | .responseCompleted _ _ out => out
  | _ => []

/-- All content texts inside the `response.completed` events of a list. -/
def completedTexts (evs : List GoEvent) : List String :=
  (((evs.map completedOutput).flatten).map GoOutItem.contentTexts).flatten

/-- Backend chunk carrying the text fragment `"Hel"`. -/
def helChunk : GoChunk :=
  { created := some 1, model := some "glm-5",
    choices := [{ delta := some { content := some "Hel" } }] }

/-- Backend chunk carrying the text fragment `"lo"`. -/
def loChunk : GoChunk :=
  { created := some 1, model := some "glm-5",
    choices := [{ delta := some { content := some "lo" } }] }

/-- The backend stream `"Hel"`, `"lo"`, stop signal (`[DONE]`). -/
def helloFrames : List Frame :=
  [Frame.chunk helChunk, Frame.chunk loChunk, Frame.done]

/-- The canonical events the Go bridge emits for `helloFrames`. -/
def helloRun : List GoEvent :=
  transformStreamGo "resp_1" "msg_1" initGoState helloFrames

/-! ## Go provider registry — `Registry` (providers package) -/

/-- `endsWith`-style check on character lists. -/
def trailsWith (p s : List Char) : Bool := leadsWith p.reverse s.reverse

/-- `strings.TrimSuffix(pattern, "*")`: drop one trailing `*` if present. -/
def trimSuffixStar (s : String) : String :=
  if trailsWith ['*'] s.data then ⟨s.data.dropLast⟩ else s

/-- Go `path/filepath.Match` on the pattern/name character lists, restricted
to the features model patterns use: literals, `?`, and `*` (matching any run
of non-separator characters).  Character classes and escapes are not modeled.
`fuel` is a termination device only; every call strictly shrinks
`pattern.length + name.length`, so any fuel of at least that sum + 1 computes
the match. -/
def globMatchAux : Nat → List Char → List Char → Bool
  | 0, _, _ => false
  | _ + 1, [], s => s.isEmpty
  | fuel + 1, '*' :: ps, s =>
    globMatchAux fuel ps s ||
      (match s with
       | [] => false
       | c :: rest => c != '/' && globMatchAux fuel ('*' :: ps) rest)
  | fuel + 1, '?' :: ps, s =>
    (match s with
     | [] => false
     | c :: rest => c != '/' && globMatchAux fuel ps rest)
  | fuel + 1, p :: ps, s =>
    (match s with
     | [] => false
     | c :: rest => p == c && globMatchAux fuel ps rest)

def globMatch (pattern name : List Char) : Bool :=
  globMatchAux (pattern.length + name.length + 1) pattern name

/-- `BaseProvider.SupportsModel`: for each configured pattern, a
`filepath.Match` glob match, then a `-*` suffix-wildcard prefix match
(`strings.HasPrefix(model, strings.TrimSuffix(pattern, "*"))`), then exact
equality; the first hit wins. -/
def supportsModel (models : List String) (model : String) : Bool :=
  models.any fun pattern =>
    globMatch pattern.data model.data
    || (trailsWith "-*".data pattern.data
        && leadsWith (trimSuffixStar pattern).data model.data)
    || pattern == model

/-- A registered provider as far as model selection is concerned. -/
structure ProviderM where
  name : String
  models : List String
deriving DecidableEq

/-- The registry: the name-keyed provider map (as an insertion-ordered
association list) and the selection `order`. -/
structure RegistryM where
  providers : List (String × ProviderM)
  order : List String
deriving DecidableEq

def emptyRegistry : RegistryM := { providers := [], order := [] }

/-- `r.providers[name] = provider` on the association list. -/
def mapStore : List (String × ProviderM) → String → ProviderM → List (String × ProviderM)
  | [], n, p => [(n, p)]
  | (k, v) :: rest, n, p =>
    if k = n then (n, p) :: rest else (k, v) :: mapStore rest n p

/-- `r.providers[name]` lookup. -/
def mapGet : List (String × ProviderM) → String → Option ProviderM
  | [], _ => none
  | (k, v) :: rest, n => if k = n then some v else mapGet rest n

/-- `Registry.updateOrder`: remove the name from the order; a disabled
provider stays removed; otherwise insert at the first index `i` with
`i ≥ priority - 1` — the source's loop never consults the stored priorities
of existing entries (its own comment reads "would need to store this" /
"For now, just append") — appending when no such index exists. -/
def updateOrder (order : List String) (name : String) (priority : Int)
    (enabled : Bool) : List String :=
  let newOrder := order.filter (fun n => n ≠ name)
  if !enabled then newOrder
  else
    match (List.range newOrder.length).find? (fun (i : Nat) => ((i : Int) ≥ priority - 1 : Bool)) with
    | some i => newOrder.take i ++ [name] ++ newOrder.drop i
    | none => newOrder ++ [name]

/-- `Registry.Register` (provider `Initialize` errors aside): store the
provider under its configured name and update the order. -/
def registerProvider (r : RegistryM) (p : ProviderM) (priority : Int)
    (enabled : Bool) : RegistryM :=
  { providers := mapStore r.providers p.name p,
    order := updateOrder r.order p.name priority enabled }

/-- `Registry.GetByModel`: walk `order` and return the first provider whose
`SupportsModel` matches; `none` models the "no provider supports model"
error. -/
def getByModel (r : RegistryM) (model : String) : Option ProviderM :=
  (r.order.find? fun n =>
    match mapGet r.providers n with
    | some p => supportsModel p.models model
    | none => false).bind (mapGet r.providers)

/-- Stable insertion used by `specSelectionOrder`: a new registration goes
after every existing entry of lower-or-equal priority, so equal priorities
keep registration order. -/
def specInsert (x : String × Int) : List (String × Int) → List (String × Int)
  | [] => [x]
  | y :: ys => if y.2 ≤ x.2 then y :: specInsert x ys else x :: y :: ys

/-- The selection order §4.5 of the spec prescribes, for comparison with
`updateOrder`: registrations stably sorted by `(priority asc, registration
order)`. -/
def specSelectionOrder (regs : List (String × Int)) : List String :=
  (regs.foldl (fun acc x => specInsert x acc) []).map Prod.fst

/-! ## `BaseProvider.HealthCheck` — `internal/providers/base.go` -/

/-- `HealthState` (providers package). -/
inductive HealthStateM
  | healthy
  | degraded
  | unhealthy
deriving DecidableEq

/-- `ProviderMetrics`, without the two wall-clock timestamp fields
(`LastHealthCheck`, `LastRequestTime`), which only record `time.Now()`.
`averageLatency` is the `time.Duration` in nanoseconds. -/
structure ProviderMetricsM where
  requestsTotal : Int
  requestsSuccess : Int
  requestsFailed : Int
  averageLatency : Int
  healthStatus : HealthStateM
  consecutiveFail : Int
  errorRate : Rat
deriving DecidableEq

/-- What happened when `HealthCheck` probed the URL: building the GET request
failed, the transport failed, or some HTTP response (any status) came back. -/
inductive ProbeOutcome
  | createError
  | transportError
  | response (status : Nat)
deriving DecidableEq

/-- `BaseProvider.HealthCheck` as a function of the probe outcome and the
measured latency.  Returns the updated metrics and `some` error message
exactly when the Go method returns a non-nil error. -/
def healthCheck (clientInitialized : Bool) (outcome : ProbeOutcome)
    (latency : Int) (m : ProviderMetricsM) : ProviderMetricsM × Option String :=
  if !clientInitialized then
    ({ m with healthStatus := .unhealthy }, some "client not initialized")
  else
    match outcome with
    | .createError =>
        ({ m with healthStatus := .unhealthy },
         some "failed to create health check request")
    | .transportError =>
        ({ m with
            healthStatus := .unhealthy,
            consecutiveFail := m.consecutiveFail + 1 },
         some "health check failed")
    | .response _ =>
        ({ m with
            consecutiveFail := 0,
            healthStatus := .healthy,
            averageLatency := latency }, none)

/-! ## TypeScript stream transformer — `StreamTransformer`

JS truthiness gates all optional fields (`truthy`); the JS `Map` from
tool-call index to accumulator is an insertion-ordered association list;
`generateMessageId()` is called without argument (a random draw), passed in
as `freshMsgId`. -/

/-- Present-and-non-empty, the JS truthiness of an optional string field. -/
def truthy : Option String → Bool
  | some s => !(s == "")
  | none => false

/-- The per-index tool-call accumulator (the mutable
`FunctionCallDelta` fields of `StreamState.currentToolCalls`). -/
structure TCAcc where
  id : String
  name : String
  arguments : String
deriving DecidableEq

/-- `function` sub-object of a tool-call delta. -/
structure FnDeltaT where
  name : Option String
  arguments : Option String
deriving DecidableEq

/-- One entry of `delta.tool_calls` (`fn` is the `function` field). -/
structure ToolCallDeltaT where
  index : Nat
  id : Option String
  fn : Option FnDeltaT
deriving DecidableEq

structure DeltaT where
  content : Option String
  tool_calls : Option (List ToolCallDeltaT)
deriving DecidableEq

structure ChoiceT where
  index : Nat
  delta : Option DeltaT
  finish_reason : Option String
deriving DecidableEq

/-- A streamed Chat Completions chunk. -/
structure ChunkT where
  id : String
  created : Nat
  model : String
  choices : List ChoiceT
deriving DecidableEq

/-- `StreamState`. -/
structure TSState where
  responseId : String
  messageId : String
  createdAt : Nat
  model : String
  outputIndex : Nat
  currentText : String
  currentToolCalls : List (Nat × TCAcc)
  isComplete : Bool
deriving DecidableEq

inductive TSContent
  | outputText (text : String)
  | functionCall (id name arguments : String)
deriving DecidableEq

structure TSOutputItem where
  id : String
  status : String
  role : String
  content : List TSContent
deriving DecidableEq

/-- The `response` payload of `response.completed`
(constant `object: 'response'` omitted). -/
structure TSResponse where
  id : String
  created_at : Nat
  status : String
  model : String
  output : List TSOutputItem
deriving DecidableEq

/-- The canonical SSE events of the TypeScript transformer.  (Note: unlike
the Go bridge's events, these carry no sequence numbers — the source has no
such field.) -/
inductive TSEvent
  | responseCreated (response_id : String) (created_at : Nat) (model : String)
  | responseDeltaText (text : String) (item_id : String) (output_index : Nat)
      (response_id : String)
  | responseDeltaFn (id name arguments : String) (item_id : String)
      (output_index : Nat) (response_id : String)
  | responseCompleted (response : TSResponse)
deriving DecidableEq

def isCompletedTS : TSEvent → Bool
  | .responseCompleted _ => true
  | _ => false

/-- `Map.get` on the index-keyed accumulator map. -/
def tcGet : List (Nat × TCAcc) → Nat → Option TCAcc
  | [], _ => none
  | (k, v) :: rest, i => if k = i then some v else tcGet rest i

/-- `Map.set`: replace in place, or append a new key (JS `Map` iteration is
insertion-ordered). -/
def tcSet : List (Nat × TCAcc) → Nat → TCAcc → List (Nat × TCAcc)
  | [], i, a => [(i, a)]
  | (k, v) :: rest, i, a =>
    if k = i then (i, a) :: rest else (k, v) :: tcSet rest i a

/-- `transformToolCallDelta`: get or create the per-index accumulator, merge
in whatever of id / name / arguments is present (arguments are appended, the
others overwritten; the id goes through `generateCallId`), and emit one
function-call delta event iff the fragment carries a name or arguments. -/
def transformToolCallDelta (st : TSState) (tc : ToolCallDeltaT) :
    TSState × List TSEvent :=
  let acc0 := (tcGet st.currentToolCalls tc.index).getD ⟨"", "", ""⟩
  let acc1 := if truthy tc.id then { acc0 with id := generateCallId (tc.id.getD "") }
              else acc0
  let fnName := tc.fn.bind FnDeltaT.name
  let fnArgs := tc.fn.bind FnDeltaT.arguments
  let acc2 := if truthy fnName then { acc1 with name := fnName.getD "" } else acc1
  let acc3 := if truthy fnArgs then
                { acc2 with arguments := acc2.arguments ++ fnArgs.getD "" }
              else acc2
  let st1 := { st with currentToolCalls := tcSet st.currentToolCalls tc.index acc3 }
  if truthy fnName || truthy fnArgs then
    (st1, [TSEvent.responseDeltaFn acc3.id acc3.name (fnArgs.getD "")
            st.messageId st.outputIndex st.responseId])
  else (st1, [])

/-- The loop over `delta.tool_calls` in `transformDelta`. -/
def applyToolCallDeltas : TSState → List ToolCallDeltaT → TSState × List TSEvent
  | st, [] => (st, [])
  | st, tc :: tcs =>
    let first := transformToolCallDelta st tc
    let rest := applyToolCallDeltas first.1 tcs
    (rest.1, first.2 ++ rest.2)

/-- `transformDelta`: a truthy text fragment is emitted as a delta event
(carrying only the fragment) and appended to `currentText`; then the
tool-call fragments are processed in order. -/
def transformDelta (st : TSState) (d : DeltaT) : TSState × List TSEvent :=
  let textStep :=
    match d.content with
    | some c =>
        if c = "" then (st, ([] : List TSEvent))
        else ({ st with currentText := st.currentText ++ c },
              [TSEvent.responseDeltaText c st.messageId st.outputIndex st.responseId])
    | none => (st, [])
  let tcStep :=
    match d.tool_calls with
    | some tcs => if tcs.length > 0 then applyToolCallDeltas textStep.1 tcs
                  else (textStep.1, [])
    | none => (textStep.1, [])
  (tcStep.1, textStep.2 ++ tcStep.2)

/-- `initializeState` (a falsy chunk id draws a random response id, passed
in as `freshRespId`). -/
def mkInitState (freshRespId freshMsgId : String) (ck : ChunkT) : TSState :=
  { responseId := if ck.id = "" then "resp_" ++ freshRespId
                  else generateResponseId ck.id,
    messageId := "msg_" ++ freshMsgId,
    createdAt := ck.created, model := ck.model, outputIndex := 0,
    currentText := "", currentToolCalls := [], isComplete := false }

/-- `buildOutputItems`: one message item whose content is the accumulated
text (when truthy) followed by every accumulated tool call that has both an
id and a name, in map (insertion) order. -/
def buildOutputItems (st : TSState) : List TSOutputItem :=
  let textContent : List TSContent :=
    if st.currentText ≠ "" then [.outputText st.currentText] else []
  let callContent : List TSContent :=
    st.currentToolCalls.filterMap fun kv =>
      if kv.2.id ≠ "" ∧ kv.2.name ≠ "" then
        some (.functionCall kv.2.id kv.2.name kv.2.arguments)
      else none
  [{ id := st.messageId, status := "completed", role := "assistant",
     content := textContent ++ callContent }]

/-- `finalizeStream`: mark the state complete, map the finish reason through
`FINISH_REASON_MAPPING` (default `completed`), and emit the single
`response.completed` event with the full built output. -/
def finalizeStream (st : TSState) (finishReason : String) :
    TSState × List TSEvent :=
  let st1 := { st with isComplete := true }
  (st1, [TSEvent.responseCompleted
    { id := st1.responseId, created_at := st1.createdAt,
      status := (FINISH_REASON_MAPPING finishReason).getD "completed",
      model := st1.model, output := buildOutputItems st1 }])

/-- `transformChunk`: the first chunk only initializes the state and emits
`response.created` (its delta is not processed); later chunks finalize on a
truthy `finish_reason`, otherwise process their first choice's delta. -/
def transformChunk (freshRespId freshMsgId : String) (st : Option TSState)
    (ck : ChunkT) : Option TSState × List TSEvent :=
  match st with
  | none =>
    let s := mkInitState freshRespId freshMsgId ck
    (some s, [TSEvent.responseCreated s.responseId s.createdAt s.model])
  | some s =>
    match ck.choices.head? with
    | none => (some s, [])
    | some choice =>
      if truthy choice.finish_reason then
        let fin := finalizeStream s (choice.finish_reason.getD "")
        (some fin.1, fin.2)
      else
        match choice.delta with
        | none => (some s, [])
        | some d =>
          let step := transformDelta s d
          (some step.1, step.2)

/-- Feeding a whole backend stream chunk by chunk through `transformChunk`. -/
def processChunksTS (freshRespId freshMsgId : String) :
    Option TSState → List ChunkT → Option TSState × List TSEvent
  | st, [] => (st, [])
  | st, ck :: cks =>
    let first := transformChunk freshRespId freshMsgId st ck
    let rest := processChunksTS freshRespId freshMsgId first.1 cks
    (rest.1, first.2 ++ rest.2)

/-- The accumulated `arguments` string at tool-call index `i`
(`""` before any fragment arrived). -/
def argsAt (i : Nat) (st : TSState) : String :=
  ((tcGet st.currentToolCalls i).getD ⟨"", "", ""⟩).arguments

/-- The argument fragments a list of tool-call deltas carries for index `i`,
in arrival order (an absent/empty fragment contributes `""`). -/
def fragmentsAt (i : Nat) (tcs : List ToolCallDeltaT) : List String :=
  tcs.filterMap fun tc =>
    if tc.index = i then some ((tc.fn.bind FnDeltaT.arguments).getD "") else none

/-- First chunk of the tool-call scenario: the role announcement (its delta
carries nothing; the first chunk only initializes the stream state). -/
def tcChunk0 : ChunkT :=
  { id := "chatcmpl-1", created := 1, model := "glm-5",
    choices := [{ index := 0,
                  delta := some { content := none, tool_calls := none },
                  finish_reason := none }] }

/-- Tool-call fragment with the backend id `call_abc123`, the name, and the
first arguments fragment. -/
def tcChunk1 : ChunkT :=
  { id := "chatcmpl-1", created := 1, model := "glm-5",
    choices := [{ index := 0,
                  delta := some
                    { content := none,
                      tool_calls := some
                        [{ index := 0, id := some "call_abc123",
                           fn := some { name := some "get_weather",
                                        arguments := some "\x7b\"location\":" } }] },
                  finish_reason := none }] }

/-- Second arguments fragment for index 0. -/
def tcChunk2 : ChunkT :=
  { id := "chatcmpl-1", created := 1, model := "glm-5",
    choices := [{ index := 0,
                  delta := some
                    { content := none,
                      tool_calls := some
                        [{ index := 0, id := none,
                           fn := some { name := none,
                                        arguments := some "\"Paris\"\x7d" } }] },
                  finish_reason := none }] }

/-- Terminal chunk with `finish_reason: "tool_calls"`. -/
def tcChunk3 : ChunkT :=
  { id := "chatcmpl-1", created := 1, model := "glm-5",
    choices := [{ index := 0, delta := none,
                  finish_reason := some "tool_calls" }] }

/-- The events of the tool-call scenario stream. -/
def tcRun : List TSEvent :=
  (processChunksTS "r1" "m1" none [tcChunk0, tcChunk1, tcChunk2, tcChunk3]).2

/-! ## TypeScript request transformer — `transformers/request.ts` and
`validateResponsesRequest` (`common.ts`)

`temperature`, `top_p` and `max_output_tokens` are JS numbers, modeled as
rationals.  JSON payloads the transformer passes through unmodified (tool
parameter schemas, response-format schemas, metadata) are modeled by
`JVal`. -/

/-- A JSON value. -/
inductive JVal
  | jnull
  | jbool (b : Bool)
  | jnum (n : Int)
  | jstr (s : String)
  | jarr (l : List JVal)
  | jobj (fields : List (String × JVal))

/-- A content block of a `message` input item (`{ type, text? }`). -/
structure MsgContentBlockT where
  type : String
  text : Option String

/-- An input item.  The transformer reads no field of `function_call` /
`function_call_output` items — they are dropped — so those carry none. -/
inductive InputItemT
  | message (role : String) (content : List MsgContentBlockT)
  | inputText (text : String)
  | inputImage (image_url : String) (detail : Option String)
  | functionCall
  | functionCallOutput

/-- `input`: plain string or item sequence. -/
inductive InputV
  | str (s : String)
  | items (l : List InputItemT)

/-- A flat (Responses-form) tool definition. -/
structure ToolFlatT where
  type : String
  name : Option String
  description : Option String
  parameters : Option JVal

/-- The nested backend tool form: the constant `type: 'function'` wrapper is
implicit, these are the `function` fields. -/
structure ChatToolFnT where
  name : String
  description : Option String
  parameters : JVal

inductive ToolChoiceV
  | str (s : String)
  | named (name : String)

inductive ChatToolChoiceV
  | str (s : String)
  | namedFn (name : String)

structure FormatT where
  type : String
  name : Option String
  strict : Option Bool
  schema : Option JVal

structure TextConfigT where
  format : Option FormatT

inductive RespFormatV
  | text
  | jsonSchema (name : String) (strict : Option Bool) (schema : JVal)

/-- The backend message content: a string, or the single-image block array
built for an `input_image` item. -/
inductive ChatContentV
  | str (s : String)
  | imageBlocks (url : String) (detail : Option String)

structure ChatMessageT where
  role : String
  content : ChatContentV

/-- `ResponsesRequest` as the transformer reads it (absent = `none`). -/
structure ResponsesRequestT where
  model : Option String
  input : Option InputV
  instructions : Option String
  temperature : Option Rat
  max_output_tokens : Option Rat
  top_p : Option Rat
  stream : Option Bool
  store : Option Bool
  metadata : Option JVal
  tools : Option (List ToolFlatT)
  tool_choice : Option ToolChoiceV
  parallel_tool_calls : Option Bool
  text : Option TextConfigT
  effort : Option String

/-- The built `ChatCompletionRequest`: a field is `none` exactly when the
conditional spread omits the key. -/
structure ChatCompletionRequestT where
  model : Option String
  messages : List ChatMessageT
  temperature : Option Rat
  max_completion_tokens : Option Rat
  top_p : Option Rat
  stream : Option Bool
  store : Option Bool
  metadata : Option JVal
  tools : Option (List ChatToolFnT)
  tool_choice : Option ChatToolChoiceV
  parallel_tool_calls : Option Bool
  response_format : Option RespFormatV
  reasoning_effort : Option String

structure TransformErrorT where
  field : String
  message : String
deriving DecidableEq

structure TransformOptionsT where
  strict : Bool
  includeMetadata : Bool
  modelMapping : List (String × String)

/-- `DEFAULT_MODEL_MAPPING` (`common.ts`). -/
def DEFAULT_MODEL_MAPPING : List (String × String) :=
  [("gpt-4.1", "glm-5"), ("gpt-4o", "glm-5"), ("gpt-4o-2024-08-06", "glm-5"),
   ("gpt-5", "glm-5"), ("gpt-4-turbo", "glm-5"), ("gpt-4", "glm-5"),
   ("gpt-3.5-turbo", "glm-3-turbo")]

def mapLookup (m : List (String × String)) (k : String) : Option String :=
  (m.find? fun kv => kv.1 == k).map Prod.snd

/-- JS falsiness of the `input` field: absent, or the empty string (an array,
even empty, is truthy). -/
def inputFalsy : Option InputV → Bool
  | none => true
  | some (.str s) => s == ""
  | some (.items _) => false

/-- `validateResponsesRequest` (`common.ts`): errors for a falsy `model`, a
falsy `input`, a present `temperature` outside `[0, 2]`, and a present
`max_output_tokens` below 1.  (The `typeof` number checks cannot fail in the
typed embedding.) -/
def validateResponsesRequest (request : ResponsesRequestT) :
    List TransformErrorT :=
  (if !truthy request.model then [⟨"model", "Model is required"⟩] else [])
  ++ (if inputFalsy request.input then [⟨"input", "Input is required"⟩] else [])
  ++ (match request.temperature with
      | some t =>
        if t < 0 ∨ 2 < t then
          [⟨"temperature", "Temperature must be between 0 and 2"⟩]
        else []
      | none => [])
  ++ (match request.max_output_tokens with
      | some k =>
        if k < 1 then
          [⟨"max_output_tokens", "max_output_tokens must be a positive number"⟩]
        else []
      | none => [])

/-- Text fragments contributed by one block in `transformMessageContent`:
`input_text`/`text` blocks contribute a truthy text, any other block with a
string `text` field contributes it as-is. -/
def reqBlockTexts (b : MsgContentBlockT) : List String :=
  if b.type = "input_text" ∨ b.type = "text" then
    match b.text with
    | some t => if t = "" then [] else [t]
    | none => []
  else
    match b.text with
    | some t => [t]
    | none => []

/-- `transformMessageContent`: the blocks' texts joined with newlines. -/
def transformMessageContent (content : List MsgContentBlockT) : String :=
  String.intercalate "\n" (List.flatten (content.map reqBlockTexts))

/-- `transformInputItems`: message / input_text / input_image items become
messages; `function_call` and `function_call_output` items are dropped. -/
def transformInputItems (items : List InputItemT) : List ChatMessageT :=
  items.filterMap fun item =>
    match item with
    | .message role content =>
        some { role := role, content := .str (transformMessageContent content) }
    | .inputText t => some { role := "user", content := .str t }
    | .inputImage url detail =>
        some { role := "user", content := .imageBlocks url detail }
    | .functionCall => none
    | .functionCallOutput => none

/-- `transformInputToMessages`: a truthy `instructions` becomes the leading
`system` message; a string input one `user` message; an item sequence is
mapped item-wise. -/
def transformInputToMessages (request : ResponsesRequestT) : List ChatMessageT :=
  (match request.instructions with
   | some ins => if ins = "" then [] else [{ role := "system", content := .str ins }]
   | none => [])
  ++ (match request.input with
      | some (.str s) => [{ role := "user", content := .str s }]
      | some (.items l) => transformInputItems l
      | none => [])

/-- `transformTools`: keep `type: 'function'` tools, re-tag to nested form;
absent parameters default to the empty object schema. -/
def transformTools (tools : List ToolFlatT) : List ChatToolFnT :=
  (tools.filter fun t => t.type == "function").map fun t =>
    { name := t.name.getD "",
      description := t.description,
      parameters := t.parameters.getD
        (JVal.jobj [("type", JVal.jstr "object"), ("properties", JVal.jobj [])]) }

/-- `transformResponseFormat`: `text` and `json_schema` pass through (with a
default name `'schema'` for a falsy name and an empty default schema), any
other type yields no response format. -/
def transformResponseFormat (format : FormatT) : Option RespFormatV :=
  if format.type = "text" then some .text
  else if format.type = "json_schema" then
    some (.jsonSchema (if truthy format.name then format.name.getD "" else "schema")
      format.strict (format.schema.getD (JVal.jobj [])))
  else none

/-- `transformRequest` (`request.ts`): throws only in strict mode with
validation errors; otherwise builds the backend request, omitting (never
defaulting) absent optional fields via the conditional spreads. -/
def transformRequest (request : ResponsesRequestT) (options : TransformOptionsT) :
    Except String ChatCompletionRequestT :=
  let modelMapping := options.modelMapping ++ DEFAULT_MODEL_MAPPING
  let errors := validateResponsesRequest request
  if options.strict ∧ 0 < errors.length then
    .error ("Request validation failed: "
      ++ String.intercalate ", " (errors.map TransformErrorT.message))
  else
    .ok { model := match request.model with
            | some m => some ((mapLookup modelMapping m).getD m)
            | none => none,
          messages := transformInputToMessages request,
          temperature := request.temperature,
          max_completion_tokens := request.max_output_tokens,
          top_p := request.top_p,
          stream := request.stream,
          store := request.store,
          metadata := request.metadata,
          tools := request.tools.map transformTools,
          tool_choice := match request.tool_choice with
            | some (.str s) => if s = "" then none else some (ChatToolChoiceV.str s)
            | some (.named n) => some (.namedFn n)
            | none => none,
          parallel_tool_calls := request.parallel_tool_calls,
          response_format := match request.text with
            | some tcfg =>
                (match tcfg.format with
                 | some f => transformResponseFormat f
                 | none => none)
            | none => none,
          reasoning_effort := match request.effort with
            | some e => if e = "" then none else some e
            | none => none }

/-- The minimal valid request used as the C9 instance. -/
def reqW : ResponsesRequestT :=
  { model := some "m", input := some (.str "hi"), instructions := none,
    temperature := none, max_output_tokens := none, top_p := none,
    stream := none, store := none, metadata := none, tools := none,
    tool_choice := none, parallel_tool_calls := none, text := none,
    effort := none }

def optsW : TransformOptionsT :=
  { strict := false, includeMetadata := false, modelMapping := [] }

/-- What `transformRequest` produces for `reqW`. -/
def outW : ChatCompletionRequestT :=
  { model := some "m",
    messages := [{ role := "user", content := .str "hi" }],
    temperature := none, max_completion_tokens := none, top_p := none,
    stream := none, store := none, metadata := none, tools := none,
    tool_choice := none, parallel_tool_calls := none,
    response_format := none, reasoning_effort := none }

/-! # Theorems -/

/-! ## String helper lemmas -/

theorem leadsWith_self_append (p t : List Char) : leadsWith p (p ++ t) = true := by
  induction p with
  | nil => rfl
  | cons c p ih => simp [leadsWith, ih]

theorem leadsWith_eq_true_iff (p s : List Char) :
    leadsWith p s = true ↔ ∃ t, s = p ++ t := by
  induction p generalizing s with
  | nil => simp [leadsWith]
  | cons c p ih =>
    cases s with
    | nil => simp [leadsWith]
    | cons d s =>
      simp only [leadsWith, Bool.and_eq_true, beq_iff_eq, ih, List.cons_append,
        List.cons.injEq]
      constructor
      · rintro ⟨rfl, t, rfl⟩; exact ⟨t, rfl, rfl⟩
      · rintro ⟨t, rfl, rfl⟩; exact ⟨rfl, t, rfl⟩

theorem strData_append (s t : String) : (s ++ t).data = s.data ++ t.data := by
  cases s; cases t; rfl

/-! ## C6 — id prefixing -/

theorem generateResponseId_idem (id : String) :
    generateResponseId (generateResponseId id) = generateResponseId id := by
  unfold generateResponseId
  by_cases h : leadsWith "resp_".data id.data = true
  · simp [h]
  · simp only [h, Bool.false_eq_true, if_false]
    rw [if_pos]
    rw [strData_append]
    exact leadsWith_self_append _ _

theorem generateMessageId_idem (id : String) :
    generateMessageId (generateMessageId id) = generateMessageId id := by
  unfold generateMessageId
  by_cases h : leadsWith "msg_".data id.data = true
  · simp [h]
  · simp only [h, Bool.false_eq_true, if_false]
    rw [if_pos]
    rw [strData_append]
    exact leadsWith_self_append _ _

/-- The claim as stated is false: `generateCallId` is not idempotent and can
double the `fc_` prefix.  Concretely `generateCallId "abc" = "fc_abc"` but a
second application yields `"fc_fc_abc"`. -/
theorem C6_counterexample :
    generateCallId "abc" = "fc_abc" ∧
    generateCallId (generateCallId "abc") = "fc_fc_abc" ∧
    ("fc_fc_abc" : String) ≠ "fc_abc" := by
  refine ⟨by decide, by decide, by decide⟩

/-- C6 (amended): the response-id and message-id generators are idempotent and
always yield ids starting with their prefix; the function-call-id generator
always yields an id starting with `fc_` and rewrites a `call_` id by prefix
substitution, but it is not idempotent: applied to an id that already starts
with `fc_` it puts a second `fc_` in front. -/
theorem C6_amended :
    (∀ id : String, generateResponseId (generateResponseId id) = generateResponseId id) ∧
    (∀ id : String, generateMessageId (generateMessageId id) = generateMessageId id) ∧
    (∀ id : String, leadsWith "resp_".data (generateResponseId id).data = true) ∧
    (∀ id : String, leadsWith "msg_".data (generateMessageId id).data = true) ∧
    (∀ id : String, leadsWith "fc_".data (generateCallId id).data = true) ∧
    (∀ id : String, leadsWith "call_".data id.data = true →
      generateCallId id = "fc_" ++ strDrop id 5) ∧
    (∀ id : String, leadsWith "fc_".data id.data = true →
      generateCallId id = "fc_" ++ id) := by
  refine ⟨generateResponseId_idem, generateMessageId_idem, ?_, ?_, ?_, ?_, ?_⟩
  · intro id
    unfold generateResponseId
    by_cases h : leadsWith "resp_".data id.data = true
    · simp [h]
    · simp only [h, Bool.false_eq_true, if_false, strData_append]
      exact leadsWith_self_append _ _
  · intro id
    unfold generateMessageId
    by_cases h : leadsWith "msg_".data id.data = true
    · simp [h]
    · simp only [h, Bool.false_eq_true, if_false, strData_append]
      exact leadsWith_self_append _ _
  · intro id
    unfold generateCallId
    by_cases h : leadsWith "call_".data id.data = true
    · simp only [h, if_true, strData_append]
      exact leadsWith_self_append _ _
    · simp only [h, Bool.false_eq_true, if_false, strData_append]
      exact leadsWith_self_append _ _
  · intro id h
    unfold generateCallId
    simp [h]
  · intro id h
    unfold generateCallId
    rcases (leadsWith_eq_true_iff _ _).mp h with ⟨t, ht⟩
    have hfc : ("fc_" : String).data = ['f', 'c', '_'] := rfl
    rw [hfc] at ht
    have hcall : leadsWith "call_".data id.data = false := by
      rw [ht]; rfl
    simp [hcall]

theorem C6_amended_witness :
    leadsWith "call_".data ("call_abc123" : String).data = true ∧
    generateCallId "call_abc123" = "fc_" ++ strDrop "call_abc123" 5 ∧
    leadsWith "fc_".data ("fc_abc" : String).data = true ∧
    generateCallId "fc_abc" = "fc_" ++ "fc_abc" :=
  ⟨by decide, C6_amended.2.2.2.2.2.1 "call_abc123" (by decide), by decide,
    C6_amended.2.2.2.2.2.2 "fc_abc" (by decide)⟩

/-! ## C5 — finish-reason → status -/

/-- The claim as stated is false on the Go side: the Go proxy's non-streaming
response transformer maps an unrecognized explicit finish reason (here
`"max_tokens_reached"`) to `"failed"`, not `"completed"`. -/
theorem C5_counterexample :
    (goProxyTransformResponse "1" "2" 0
      { choices := [{ message := some { content := some "hi" },
                      finish_reason := some "max_tokens_reached" }],
        usage := none, model := none }).status = "failed" ∧
    ("failed" : String) ≠ "completed" :=
  ⟨rfl, by decide⟩

/-- C5 (amended): the TypeScript non-streaming `transformResponse` derives the
status by the fixed table with `stop`/`tool_calls` → `completed`,
`length` → `incomplete`, `content_filter` → `failed` and everything else —
including an absent `finish_reason` — → `completed`; the Go non-streaming proxy
transformer (and `ZaiProvider.mapFinishReason`) uses the same table on the four
named reasons but maps every other explicit reason to `failed` (absent still
→ `completed`). -/
theorem C5_amended :
    (∀ (fr : Option String) (fR fM : String) (b : Bool) (idS : String)
       (created : Nat) (model : String) (msg : ChatMsgT)
       (rest : List ChatChoiceT) (us : Option UsageT),
      (transformResponse fR fM b
        { id := idS, created := created, model := model,
          choices := { message := msg, finish_reason := fr } :: rest,
          usage := us }).map (fun r => r.status) = .ok (tsResponseStatus fr)) ∧
    (tsResponseStatus none = "completed") ∧
    (∀ r : String, tsResponseStatus (some r) =
      if r = "stop" then "completed" else if r = "length" then "incomplete"
      else if r = "tool_calls" then "completed"
      else if r = "content_filter" then "failed" else "completed") ∧
    (∀ (f1 f2 : String) (t : Int) (msg : Option GoChatMsg) (r : String)
       (rest : List GoChatChoice) (us : Option GoUsage) (mo : Option String),
      (goProxyTransformResponse f1 f2 t
        { choices := { message := msg, finish_reason := some r } :: rest,
          usage := us, model := mo }).status = mapFinishReason r) ∧
    (∀ (f1 f2 : String) (t : Int) (msg : Option GoChatMsg)
       (rest : List GoChatChoice) (us : Option GoUsage) (mo : Option String),
      (goProxyTransformResponse f1 f2 t
        { choices := { message := msg, finish_reason := none } :: rest,
          usage := us, model := mo }).status = "completed") ∧
    (∀ r : String, mapFinishReason r =
      if r = "stop" then "completed" else if r = "length" then "incomplete"
      else if r = "tool_calls" then "completed" else "failed") := by
  refine ⟨?_, rfl, ?_, ?_, ?_, ?_⟩
  · intro fr fR fM b idS created model msg rest us
    rfl
  · intro r
    have h0 : tsResponseStatus (some r) = (FINISH_REASON_MAPPING r).getD "completed" := rfl
    rw [h0]
    unfold FINISH_REASON_MAPPING
    split_ifs <;> rfl
  · intro f1 f2 t msg r rest us mo
    rfl
  · intro f1 f2 t msg rest us mo
    rfl
  · intro r
    unfold mapFinishReason
    split_ifs <;> rfl

/-! ## C8 — zero choices -/

/-- The claim as stated is false on the Go side:
`ZaiProvider.TransformResponse` on a backend response with an empty `choices`
list returns a canonical response (status `"completed"`, empty output) instead
of raising an error. -/
theorem C8_counterexample :
    zaiTransformResponse "7" 0 { choices := [], usage := none }
      = .ok { id := "resp_7", object := "response", createdAt := 0,
              status := "completed", output := [], usage := none } := rfl

/-- C8 (amended): the TypeScript response transformer raises an error on zero
choices and emits no canonical response; `ZaiProvider.TransformResponse`
instead returns a canonical response with empty output and status
`"completed"` for zero choices. -/
theorem C8_amended :
    (∀ (fR fM idS model : String) (created : Nat) (us : Option UsageT) (b : Bool),
      transformResponse fR fM b
        { id := idS, created := created, model := model, choices := [], usage := us }
        = .error "No choices in Chat Completions response") ∧
    (∀ (nano : String) (t : Int) (us : Option GoUsage),
      ∃ out, zaiTransformResponse nano t { choices := [], usage := us } = .ok out ∧
        out.output = [] ∧ out.status = "completed") := by
  refine ⟨?_, ?_⟩
  · intro fR fM idS model created us b
    rfl
  · intro nano t us
    exact ⟨_, rfl, rfl, rfl⟩

/-! ## Go streaming bridge: sequence-number lemmas -/

theorem range'_glue (s a b : Nat) :
    List.range' s a ++ List.range' (s + a) b = List.range' s (a + b) := by
  rw [Nat.add_comm a b]
  have h := List.range'_append s a b 1
  simp only [Nat.mul_one, one_mul] at h
  exact h

theorem processContent_seq (iid : String) (st : GoState) (content : String) :
    (processContent iid st content).1.sequenceNumber
      = st.sequenceNumber + ((processContent iid st content).2).length ∧
    ((processContent iid st content).2).map GoEvent.seq
      = List.range' st.sequenceNumber ((processContent iid st content).2).length := by
  by_cases h1 : st.sentOutputItemAdded <;> by_cases h2 : st.sentContentPartAdded <;>
    simp [processContent, h1, h2, GoEvent.seq, List.range'_succ]

theorem processChoice_seq (iid : String) (st : GoState) (c : GoChoice) :
    (processChoice iid st c).1.sequenceNumber
      = st.sequenceNumber + ((processChoice iid st c).2).length ∧
    ((processChoice iid st c).2).map GoEvent.seq
      = List.range' st.sequenceNumber ((processChoice iid st c).2).length := by
  obtain ⟨delta⟩ := c
  cases delta with
  | none => simp [processChoice]
  | some d =>
    obtain ⟨content⟩ := d
    cases content with
    | none => simp [processChoice]
    | some s =>
      by_cases hs : s = ""
      · simp [processChoice, hs]
      · simpa [processChoice, hs] using processContent_seq iid st s

theorem processChoices_seq (iid : String) (cs : List GoChoice) : ∀ (st : GoState),
    (processChoices iid st cs).1.sequenceNumber
      = st.sequenceNumber + ((processChoices iid st cs).2).length ∧
    ((processChoices iid st cs).2).map GoEvent.seq
      = List.range' st.sequenceNumber ((processChoices iid st cs).2).length := by
  induction cs with
  | nil => intro st; simp [processChoices]
  | cons c cs ih =>
    intro st
    obtain ⟨hc1, hc2⟩ := processChoice_seq iid st c
    obtain ⟨hi1, hi2⟩ := ih (processChoice iid st c).1
    constructor
    · simp only [processChoices, List.length_append]
      rw [hi1, hc1]
      omega
    · simp only [processChoices, List.map_append, List.length_append]
      rw [hc2, hi2, hc1, range'_glue]

theorem processChunk_seq (rid iid : String) (st : GoState) (ck : GoChunk) :
    (processChunk rid iid st ck).1.sequenceNumber
      = st.sequenceNumber + ((processChunk rid iid st ck).2).length ∧
    ((processChunk rid iid st ck).2).map GoEvent.seq
      = List.range' st.sequenceNumber ((processChunk rid iid st ck).2).length := by
  by_cases h : st.sentCreated
  · simpa [processChunk, h] using processChoices_seq iid ck.choices st
  · obtain ⟨hi1, hi2⟩ := processChoices_seq iid ck.choices
      { st with sentCreated := true, sequenceNumber := st.sequenceNumber + 2 }
    have hseq : ({ st with
        sentCreated := true,
        sequenceNumber := st.sequenceNumber + 2 } : GoState).sequenceNumber
        = st.sequenceNumber + 2 := rfl
    rw [hseq] at hi1 hi2
    refine ⟨?_, ?_⟩
    · simp only [processChunk, h, if_false, Bool.false_eq_true, List.length_append,
        List.length_cons, List.length_nil]
      rw [hi1]
      omega
    · simp only [processChunk, h, if_false, Bool.false_eq_true, List.map_append,
        List.map_cons, List.map_nil, GoEvent.seq, List.length_append,
        List.length_cons, List.length_nil]
      rw [hi2]
      generalize (processChoices iid
        { st with sentCreated := true, sequenceNumber := st.sequenceNumber + 2 }
        ck.choices).2.length = L
      rw [show 0 + 1 + 1 + L = 2 + L by omega, ← range'_glue st.sequenceNumber 2 L]
      simp [List.range'_succ]

theorem finalizeStreamGo_seq (rid iid : String) (st : GoState) :
    (finalizeStreamGo rid iid st).map GoEvent.seq
      = List.range' st.sequenceNumber (finalizeStreamGo rid iid st).length := by
  by_cases h2 : st.sentContentPartAdded <;> by_cases ht : st.fullText = "" <;>
    by_cases h3 : st.sentOutputItemAdded <;>
      simp [finalizeStreamGo, h2, ht, h3, GoEvent.seq, List.range'_succ]

theorem transformStreamGo_seq (rid iid : String) (frames : List Frame) :
    ∀ (st : GoState),
    (transformStreamGo rid iid st frames).map GoEvent.seq
      = List.range' st.sequenceNumber (transformStreamGo rid iid st frames).length := by
  induction frames with
  | nil => intro st; simp [transformStreamGo]
  | cons f rest ih =>
    intro st
    cases f with
    | other => simpa [transformStreamGo] using ih st
    | malformed => simpa [transformStreamGo] using ih st
    | done => simpa [transformStreamGo] using finalizeStreamGo_seq rid iid st
    | chunk ck =>
      obtain ⟨hc1, hc2⟩ := processChunk_seq rid iid st ck
      have hr := ih (processChunk rid iid st ck).1
      simp only [transformStreamGo, List.map_append, List.length_append]
      rw [hc2, hr, hc1, range'_glue]

/-! ## C1 — streaming sequence numbers -/

/-- C1: over any full run of the Go streaming bridge (any sequence of backend
lines, including the `[DONE]` finalization), every emitted canonical event
carries a sequence number (the `seq` field present on every `GoEvent`
constructor), and the emitted sequence numbers are exactly `0, 1, 2, …` in
emission order: they start at 0 and are strictly increasing with no gaps. -/
theorem C1_sequence_numbers (rid iid : String) (frames : List Frame) :
    (transformStreamGo rid iid initGoState frames).map GoEvent.seq
      = List.range (transformStreamGo rid iid initGoState frames).length := by
  have h := transformStreamGo_seq rid iid frames initGoState
  rw [List.range_eq_range']
  exact h

/-! ## String join lemmas -/

theorem strJoin_acc (l : List String) :
    ∀ x : String, l.foldl (fun r s => r ++ s) x = x ++ String.join l := by
  induction l with
  | nil => intro x; simp [String.join, String.append_empty]
  | cons a l ih =>
    intro x
    simp only [List.foldl_cons]
    rw [ih (x ++ a)]
    have h2 : String.join (a :: l) = a ++ String.join l := by
      show List.foldl (fun r s => r ++ s) ("" ++ a) l = a ++ String.join l
      rw [show ("" ++ a : String) = a from rfl, ih a]
    rw [h2, String.append_assoc]

theorem strJoin_cons (a : String) (l : List String) :
    String.join (a :: l) = a ++ String.join l := by
  show List.foldl (fun r s => r ++ s) ("" ++ a) l = a ++ String.join l
  rw [show ("" ++ a : String) = a from rfl, strJoin_acc l a]

theorem strJoin_append (l1 l2 : List String) :
    String.join (l1 ++ l2) = String.join l1 ++ String.join l2 := by
  induction l1 with
  | nil => simp [String.join]
  | cons a l ih => simp only [List.cons_append, strJoin_cons, ih, String.append_assoc]

theorem strAppend_ne_empty_right (s t : String) (h : t ≠ "") : s ++ t ≠ "" := by
  intro hc
  apply h
  cases s with
  | mk a =>
    cases t with
    | mk b =>
      have hab : a ++ b = [] := congrArg String.data hc
      have hb : b = [] := (List.append_eq_nil.mp hab).2
      rw [hb]

/-! ## Go streaming bridge: state/event invariants -/

theorem processContent_inv (iid : String) (st : GoState) (content : String)
    (hc : content ≠ "") :
    ((processContent iid st content).1.sentOutputItemAdded = true ↔
      (st.sentOutputItemAdded = true ∨
        GoKind.outputItemAdded ∈ ((processContent iid st content).2).map GoEvent.kind)) ∧
    ((processContent iid st content).1.sentContentPartAdded = true ↔
      (st.sentContentPartAdded = true ∨
        GoKind.contentPartAdded ∈ ((processContent iid st content).2).map GoEvent.kind)) ∧
    ((processContent iid st content).1.fullText
      = st.fullText ++ String.join (deltaTexts ((processContent iid st content).2))) ∧
    ((processContent iid st content).1.fullText ≠ "") ∧
    ((processContent iid st content).1.sentCreated = st.sentCreated) := by
  by_cases h1 : st.sentOutputItemAdded <;> by_cases h2 : st.sentContentPartAdded <;>
    simp [processContent, h1, h2, GoEvent.kind, deltaTexts, strJoin_cons,
      String.join, String.append_empty, strAppend_ne_empty_right _ _ hc]

theorem processChoice_inv (iid : String) (st : GoState) (c : GoChoice) :
    ((processChoice iid st c).1.sentOutputItemAdded = true ↔
      (st.sentOutputItemAdded = true ∨
        GoKind.outputItemAdded ∈ ((processChoice iid st c).2).map GoEvent.kind)) ∧
    ((processChoice iid st c).1.sentContentPartAdded = true ↔
      (st.sentContentPartAdded = true ∨
        GoKind.contentPartAdded ∈ ((processChoice iid st c).2).map GoEvent.kind)) ∧
    ((processChoice iid st c).1.fullText
      = st.fullText ++ String.join (deltaTexts ((processChoice iid st c).2))) ∧
    ((st.sentContentPartAdded = true → st.fullText ≠ "") →
      ((processChoice iid st c).1.sentContentPartAdded = true →
        (processChoice iid st c).1.fullText ≠ "")) ∧
    ((processChoice iid st c).1.sentCreated = st.sentCreated) := by
  obtain ⟨delta⟩ := c
  cases delta with
  | none => simp [processChoice, deltaTexts, String.join, String.append_empty]
  | some d =>
    obtain ⟨content⟩ := d
    cases content with
    | none => simp [processChoice, deltaTexts, String.join, String.append_empty]
    | some s =>
      by_cases hs : s = ""
      · simp [processChoice, hs, deltaTexts, String.join, String.append_empty]
      · have h := processContent_inv iid st s hs
        simp only [processChoice, hs, if_false]
        exact ⟨h.1, h.2.1, h.2.2.1, fun _ _ => h.2.2.2.1, h.2.2.2.2⟩

set_option maxHeartbeats 1000000 in
theorem processChoices_inv (iid : String) (cs : List GoChoice) : ∀ st : GoState,
    ((processChoices iid st cs).1.sentOutputItemAdded = true ↔
      (st.sentOutputItemAdded = true ∨
        GoKind.outputItemAdded ∈ ((processChoices iid st cs).2).map GoEvent.kind)) ∧
    ((processChoices iid st cs).1.sentContentPartAdded = true ↔
      (st.sentContentPartAdded = true ∨
        GoKind.contentPartAdded ∈ ((processChoices iid st cs).2).map GoEvent.kind)) ∧
    ((processChoices iid st cs).1.fullText
      = st.fullText ++ String.join (deltaTexts ((processChoices iid st cs).2))) ∧
    ((st.sentContentPartAdded = true → st.fullText ≠ "") →
      ((processChoices iid st cs).1.sentContentPartAdded = true →
        (processChoices iid st cs).1.fullText ≠ "")) ∧
    ((processChoices iid st cs).1.sentCreated = st.sentCreated) := by
  induction cs with
  | nil =>
    intro st
    simp [processChoices, deltaTexts, String.join, String.append_empty]
  | cons c cs ih =>
    intro st
    obtain ⟨ha, hb, hc, hd, he⟩ := processChoice_inv iid st c
    obtain ⟨ia, ib, ic, id2, ie⟩ := ih (processChoice iid st c).1
    have hfst : (processChoices iid st (c :: cs)).1
        = (processChoices iid (processChoice iid st c).1 cs).1 := rfl
    have hsnd : (processChoices iid st (c :: cs)).2
        = (processChoice iid st c).2 ++ (processChoices iid (processChoice iid st c).1 cs).2 := rfl
    refine ⟨?_, ?_, ?_, ?_, ?_⟩
    · rw [hfst, hsnd, ia, ha, List.map_append]
      simp only [List.mem_append]
      exact or_assoc
    · rw [hfst, hsnd, ib, hb, List.map_append]
      simp only [List.mem_append]
      exact or_assoc
    · rw [hfst, hsnd, ic, hc]
      simp only [deltaTexts, List.filterMap_append, strJoin_append, String.append_assoc]
    · intro hpre
      rw [hfst]
      exact id2 (hd hpre)
    · rw [hfst, ie, he]

set_option maxHeartbeats 1000000 in
theorem processChunk_inv (rid iid : String) (st : GoState) (ck : GoChunk) :
    ((processChunk rid iid st ck).1.sentOutputItemAdded = true ↔
      (st.sentOutputItemAdded = true ∨
        GoKind.outputItemAdded ∈ ((processChunk rid iid st ck).2).map GoEvent.kind)) ∧
    ((processChunk rid iid st ck).1.sentContentPartAdded = true ↔
      (st.sentContentPartAdded = true ∨
        GoKind.contentPartAdded ∈ ((processChunk rid iid st ck).2).map GoEvent.kind)) ∧
    ((processChunk rid iid st ck).1.fullText
      = st.fullText ++ String.join (deltaTexts ((processChunk rid iid st ck).2))) ∧
    ((st.sentContentPartAdded = true → st.fullText ≠ "") →
      ((processChunk rid iid st ck).1.sentContentPartAdded = true →
        (processChunk rid iid st ck).1.fullText ≠ "")) := by
  by_cases h : st.sentCreated
  · obtain ⟨ia, ib, ic, id2, _⟩ := processChoices_inv iid ck.choices st
    have hfst : (processChunk rid iid st ck).1 = (processChoices iid st ck.choices).1 := by
      simp [processChunk, h]
    have hsnd : (processChunk rid iid st ck).2 = (processChoices iid st ck.choices).2 := by
      simp [processChunk, h]
    rw [hfst, hsnd]
    exact ⟨ia, ib, ic, id2⟩
  · obtain ⟨ia, ib, ic, id2, _⟩ := processChoices_inv iid ck.choices
      { st with sentCreated := true, sequenceNumber := st.sequenceNumber + 2 }
    have hfst : (processChunk rid iid st ck).1
        = (processChoices iid
            { st with sentCreated := true, sequenceNumber := st.sequenceNumber + 2 }
            ck.choices).1 := by
      simp [processChunk, h]
    have hsnd : (processChunk rid iid st ck).2
        = [GoEvent.created st.sequenceNumber rid (ck.created.getD 0) (ck.model.getD ""),
           GoEvent.inProgress (st.sequenceNumber + 1) rid (ck.created.getD 0) (ck.model.getD "")]
          ++ (processChoices iid
              { st with sentCreated := true, sequenceNumber := st.sequenceNumber + 2 }
              ck.choices).2 := by
      simp [processChunk, h]
    have hflags1 : ({ st with
        sentCreated := true,
        sequenceNumber := st.sequenceNumber + 2 } : GoState).sentOutputItemAdded
        = st.sentOutputItemAdded := rfl
    have hflags2 : ({ st with
        sentCreated := true,
        sequenceNumber := st.sequenceNumber + 2 } : GoState).sentContentPartAdded
        = st.sentContentPartAdded := rfl
    have hflags3 : ({ st with
        sentCreated := true,
        sequenceNumber := st.sequenceNumber + 2 } : GoState).fullText
        = st.fullText := rfl
    rw [hflags1] at ia
    rw [hflags2] at ib id2
    rw [hflags3] at ic id2
    rw [hfst, hsnd]
    refine ⟨?_, ?_, ?_, id2⟩
    · rw [ia, List.map_append]
      simp [GoEvent.kind]
    · rw [ib, List.map_append]
      simp [GoEvent.kind]
    · rw [ic]
      simp [deltaTexts, GoEvent.kind]

theorem transformStreamGo_split (rid iid : String) (pre : List Frame) :
    ∀ (st : GoState) (rest : List Frame), Frame.done ∉ pre →
    transformStreamGo rid iid st (pre ++ Frame.done :: rest)
      = transformStreamGo rid iid st pre
        ++ finalizeStreamGo rid iid (stateAfterGo rid iid st pre) := by
  induction pre with
  | nil =>
    intro st rest _
    simp [transformStreamGo, stateAfterGo]
  | cons f pre ih =>
    intro st rest h
    have hf : Frame.done ∉ pre := fun hc => h (List.mem_cons_of_mem _ hc)
    cases f with
    | other => simpa [transformStreamGo, stateAfterGo] using ih st rest hf
    | malformed => simpa [transformStreamGo, stateAfterGo] using ih st rest hf
    | done => exact absurd (List.mem_cons_self _ _) h
    | chunk ck =>
      have e1 : transformStreamGo rid iid st ((Frame.chunk ck :: pre) ++ Frame.done :: rest)
          = (processChunk rid iid st ck).2
            ++ transformStreamGo rid iid (processChunk rid iid st ck).1
                 (pre ++ Frame.done :: rest) := rfl
      have e2 : transformStreamGo rid iid st (Frame.chunk ck :: pre)
          = (processChunk rid iid st ck).2
            ++ transformStreamGo rid iid (processChunk rid iid st ck).1 pre := rfl
      have e3 : stateAfterGo rid iid st (Frame.chunk ck :: pre)
          = stateAfterGo rid iid (processChunk rid iid st ck).1 pre := rfl
      rw [e1, e2, e3, ih _ rest hf, List.append_assoc]

set_option maxHeartbeats 1000000 in
theorem streamGo_inv (rid iid : String) (pre : List Frame) : ∀ st : GoState,
    Frame.done ∉ pre →
    ((stateAfterGo rid iid st pre).sentOutputItemAdded = true ↔
      (st.sentOutputItemAdded = true ∨
        GoKind.outputItemAdded ∈ (transformStreamGo rid iid st pre).map GoEvent.kind)) ∧
    ((stateAfterGo rid iid st pre).sentContentPartAdded = true ↔
      (st.sentContentPartAdded = true ∨
        GoKind.contentPartAdded ∈ (transformStreamGo rid iid st pre).map GoEvent.kind)) ∧
    ((stateAfterGo rid iid st pre).fullText
      = st.fullText ++ String.join (deltaTexts (transformStreamGo rid iid st pre))) ∧
    ((st.sentContentPartAdded = true → st.fullText ≠ "") →
      ((stateAfterGo rid iid st pre).sentContentPartAdded = true →
        (stateAfterGo rid iid st pre).fullText ≠ "")) := by
  induction pre with
  | nil =>
    intro st _
    simp [transformStreamGo, stateAfterGo, deltaTexts, String.join, String.append_empty]
  | cons f pre ih =>
    intro st h
    have hf : Frame.done ∉ pre := fun hc => h (List.mem_cons_of_mem _ hc)
    cases f with
    | other => simpa [transformStreamGo, stateAfterGo] using ih st hf
    | malformed => simpa [transformStreamGo, stateAfterGo] using ih st hf
    | done => exact absurd (List.mem_cons_self _ _) h
    | chunk ck =>
      obtain ⟨ha, hb, hc2, hd⟩ := processChunk_inv rid iid st ck
      obtain ⟨ia, ib, ic, id2⟩ := ih (processChunk rid iid st ck).1 hf
      have hfst : stateAfterGo rid iid st (Frame.chunk ck :: pre)
          = stateAfterGo rid iid (processChunk rid iid st ck).1 pre := rfl
      have hsnd : transformStreamGo rid iid st (Frame.chunk ck :: pre)
          = (processChunk rid iid st ck).2
            ++ transformStreamGo rid iid (processChunk rid iid st ck).1 pre := rfl
      refine ⟨?_, ?_, ?_, ?_⟩
      · rw [hfst, hsnd, ia, ha, List.map_append]
        simp only [List.mem_append]
        exact or_assoc
      · rw [hfst, hsnd, ib, hb, List.map_append]
        simp only [List.mem_append]
        exact or_assoc
      · rw [hfst, hsnd, ic, hc2]
        simp only [deltaTexts, List.filterMap_append, strJoin_append, String.append_assoc]
      · intro hpre
        rw [hfst]
        exact id2 (hd hpre)

theorem finalizeStreamGo_kinds (rid iid : String) (st : GoState)
    (himp : st.sentContentPartAdded = true → st.fullText ≠ "") :
    (finalizeStreamGo rid iid st).map GoEvent.kind
      = (if st.sentContentPartAdded = true
         then [GoKind.outputTextDone, GoKind.contentPartDone] else [])
        ++ (if st.sentOutputItemAdded = true then [GoKind.outputItemDone] else [])
        ++ [GoKind.responseCompleted, GoKind.responseDone] := by
  by_cases h2 : st.sentContentPartAdded <;> by_cases h3 : st.sentOutputItemAdded
  · simp [finalizeStreamGo, h2, h3, himp h2, GoEvent.kind]
  · simp [finalizeStreamGo, h2, h3, himp h2, GoEvent.kind]
  · simp [finalizeStreamGo, h2, h3, GoEvent.kind]
  · simp [finalizeStreamGo, h2, h3, GoEvent.kind]

theorem finalizeStreamGo_payloads (rid iid : String) (st : GoState) :
    (∀ (n : Nat) (i t : String),
      GoEvent.outputTextDone n i t ∈ finalizeStreamGo rid iid st → t = st.fullText) ∧
    (∀ (n : Nat) (it : GoOutItem),
      GoEvent.outputItemDone n it ∈ finalizeStreamGo rid iid st →
        it.contentTexts = [st.fullText]) := by
  constructor
  · intro n i t hm
    by_cases h2 : st.sentContentPartAdded <;> by_cases ht : st.fullText = "" <;>
      by_cases h3 : st.sentOutputItemAdded <;>
        simp [finalizeStreamGo, h2, ht, h3] at hm <;> tauto
  · intro n it hm
    by_cases h2 : st.sentContentPartAdded <;> by_cases ht : st.fullText = "" <;>
      by_cases h3 : st.sentOutputItemAdded <;>
        simp [finalizeStreamGo, h2, ht, h3] at hm <;>
          (try obtain ⟨_, rfl⟩ := hm) <;> simp [ht]

theorem finalizeStreamGo_completedPayload (rid iid : String) (st : GoState) :
    ∀ (n : Nat) (r : String) (out : List GoOutItem),
      GoEvent.responseCompleted n r out ∈ finalizeStreamGo rid iid st →
        out = [{ id := iid, status := "completed", role := "assistant",
                 contentTexts := [] }] := by
  intro n r out hm
  by_cases h2 : st.sentContentPartAdded <;> by_cases ht : st.fullText = "" <;>
    by_cases h3 : st.sentOutputItemAdded <;>
      simp [finalizeStreamGo, h2, ht, h3] at hm <;> tauto

/-! ## C3 — finalization order and gating -/

/-- The claim as stated is false: in the finalization block for the stream
`"Hel"`, `"lo"`, the accumulated text is `"Hello"`, yet the
`response.completed` event is not a full canonical response snapshot — its
output item's content list is hard-coded empty in the source, so the
accumulated content is absent from the completed payload. -/
theorem C3_counterexample :
    (stateAfterGo "resp_1" "msg_1" initGoState
        [Frame.chunk helChunk, Frame.chunk loChunk]).fullText = "Hello" ∧
    (finalizeStreamGo "resp_1" "msg_1"
        (stateAfterGo "resp_1" "msg_1" initGoState
          [Frame.chunk helChunk, Frame.chunk loChunk])).filter
        (fun e => e.kind == GoKind.responseCompleted)
      = [GoEvent.responseCompleted 9 "resp_1"
          [{ id := "msg_1", status := "completed", role := "assistant",
             contentTexts := [] }]] ∧
    ¬ "Hello" ∈ completedTexts
        ((finalizeStreamGo "resp_1" "msg_1"
            (stateAfterGo "resp_1" "msg_1" initGoState
              [Frame.chunk helChunk, Frame.chunk loChunk])).filter
          (fun e => e.kind == GoKind.responseCompleted)) :=
  ⟨by decide, by decide, by decide⟩

/-- C3 (amended): when the terminal `[DONE]` signal arrives after any
done-free prefix of the stream, the bridge's total output is the prefix
events followed by the finalization block; the finalization block consists
of, in exactly this order, `output_text.done` and `content_part.done`
(present iff a `content_part.added` was emitted earlier), `output_item.done`
(present iff an `output_item.added` was emitted earlier), then always
`response.completed` and the final `done` event; `output_text.done` carries
the full accumulated text (the concatenation of all earlier delta payloads)
and `output_item.done` the item with all accumulated content, while the
`response.completed` payload is not a full snapshot: its output item carries
the hard-coded empty content list. -/
theorem C3_finalization_order (rid iid : String) (pre : List Frame)
    (h : Frame.done ∉ pre) :
    transformStreamGo rid iid initGoState (pre ++ [Frame.done])
      = transformStreamGo rid iid initGoState pre
        ++ finalizeStreamGo rid iid (stateAfterGo rid iid initGoState pre) ∧
    (finalizeStreamGo rid iid (stateAfterGo rid iid initGoState pre)).map GoEvent.kind
      = (if GoKind.contentPartAdded
            ∈ (transformStreamGo rid iid initGoState pre).map GoEvent.kind
         then [GoKind.outputTextDone, GoKind.contentPartDone] else [])
        ++ (if GoKind.outputItemAdded
              ∈ (transformStreamGo rid iid initGoState pre).map GoEvent.kind
            then [GoKind.outputItemDone] else [])
        ++ [GoKind.responseCompleted, GoKind.responseDone] ∧
    (∀ (n : Nat) (i t : String),
      GoEvent.outputTextDone n i t
          ∈ finalizeStreamGo rid iid (stateAfterGo rid iid initGoState pre) →
        t = String.join (deltaTexts (transformStreamGo rid iid initGoState pre))) ∧
    (∀ (n : Nat) (it : GoOutItem),
      GoEvent.outputItemDone n it
          ∈ finalizeStreamGo rid iid (stateAfterGo rid iid initGoState pre) →
        it.contentTexts
          = [String.join (deltaTexts (transformStreamGo rid iid initGoState pre))]) ∧
    (∀ (n : Nat) (r : String) (out : List GoOutItem),
      GoEvent.responseCompleted n r out
          ∈ finalizeStreamGo rid iid (stateAfterGo rid iid initGoState pre) →
        out = [{ id := iid, status := "completed", role := "assistant",
                 contentTexts := [] }]) := by
  obtain ⟨ia, ib, ic, id2⟩ := streamGo_inv rid iid pre initGoState h
  have hia : (stateAfterGo rid iid initGoState pre).sentOutputItemAdded = true ↔
      GoKind.outputItemAdded
        ∈ (transformStreamGo rid iid initGoState pre).map GoEvent.kind := by
    rw [ia]
    simp [initGoState]
  have hib : (stateAfterGo rid iid initGoState pre).sentContentPartAdded = true ↔
      GoKind.contentPartAdded
        ∈ (transformStreamGo rid iid initGoState pre).map GoEvent.kind := by
    rw [ib]
    simp [initGoState]
  have hic : (stateAfterGo rid iid initGoState pre).fullText
      = String.join (deltaTexts (transformStreamGo rid iid initGoState pre)) := by
    rw [ic]
    rfl
  have himp : (stateAfterGo rid iid initGoState pre).sentContentPartAdded = true →
      (stateAfterGo rid iid initGoState pre).fullText ≠ "" :=
    id2 (by simp [initGoState])
  refine ⟨transformStreamGo_split rid iid pre initGoState [] h, ?_, ?_, ?_, ?_⟩
  · rw [finalizeStreamGo_kinds rid iid _ himp]
    rw [if_congr hib rfl rfl, if_congr hia rfl rfl]
  · intro n i t hm
    rw [← hic]
    exact (finalizeStreamGo_payloads rid iid _).1 n i t hm
  · intro n it hm
    rw [← hic]
    exact (finalizeStreamGo_payloads rid iid _).2 n it hm
  · intro n r out hm
    exact finalizeStreamGo_completedPayload rid iid _ n r out hm

theorem C3_witness :
    Frame.done ∉ [Frame.chunk helChunk] ∧
    (transformStreamGo "resp_1" "msg_1" initGoState ([Frame.chunk helChunk] ++ [Frame.done])
      = transformStreamGo "resp_1" "msg_1" initGoState [Frame.chunk helChunk]
        ++ finalizeStreamGo "resp_1" "msg_1"
             (stateAfterGo "resp_1" "msg_1" initGoState [Frame.chunk helChunk]) ∧
    (finalizeStreamGo "resp_1" "msg_1"
        (stateAfterGo "resp_1" "msg_1" initGoState [Frame.chunk helChunk])).map GoEvent.kind
      = (if GoKind.contentPartAdded
            ∈ (transformStreamGo "resp_1" "msg_1" initGoState
                [Frame.chunk helChunk]).map GoEvent.kind
         then [GoKind.outputTextDone, GoKind.contentPartDone] else [])
        ++ (if GoKind.outputItemAdded
              ∈ (transformStreamGo "resp_1" "msg_1" initGoState
                  [Frame.chunk helChunk]).map GoEvent.kind
            then [GoKind.outputItemDone] else [])
        ++ [GoKind.responseCompleted, GoKind.responseDone] ∧
    (∀ (n : Nat) (i t : String),
      GoEvent.outputTextDone n i t
          ∈ finalizeStreamGo "resp_1" "msg_1"
              (stateAfterGo "resp_1" "msg_1" initGoState [Frame.chunk helChunk]) →
        t = String.join (deltaTexts (transformStreamGo "resp_1" "msg_1" initGoState
              [Frame.chunk helChunk]))) ∧
    (∀ (n : Nat) (it : GoOutItem),
      GoEvent.outputItemDone n it
          ∈ finalizeStreamGo "resp_1" "msg_1"
              (stateAfterGo "resp_1" "msg_1" initGoState [Frame.chunk helChunk]) →
        it.contentTexts
          = [String.join (deltaTexts (transformStreamGo "resp_1" "msg_1" initGoState
              [Frame.chunk helChunk]))]) ∧
    (∀ (n : Nat) (r : String) (out : List GoOutItem),
      GoEvent.responseCompleted n r out
          ∈ finalizeStreamGo "resp_1" "msg_1"
              (stateAfterGo "resp_1" "msg_1" initGoState [Frame.chunk helChunk]) →
        out = [{ id := "msg_1", status := "completed", role := "assistant",
                 contentTexts := [] }])) :=
  ⟨by decide, C3_finalization_order "resp_1" "msg_1" [Frame.chunk helChunk] (by decide)⟩

/-! ## C2 — text accumulation and the completed/done pair -/

/-- The claim as stated is false: for the stream `"Hel"`, `"lo"`, `[DONE]`,
the unique `response.completed` event's output item carries an empty content
list in the Go bridge (the accumulated text `"Hello"` is carried by the
`output_text.done` / `content_part.done` / `output_item.done` events
instead), so the completed event's output text is not `"Hello"`. -/
theorem C2_counterexample :
    helloRun.filter (fun e => e.kind == GoKind.responseCompleted)
      = [GoEvent.responseCompleted 9 "resp_1"
          [{ id := "msg_1", status := "completed", role := "assistant",
             contentTexts := [] }]] ∧
    ¬ "Hello" ∈ completedTexts
        (helloRun.filter (fun e => e.kind == GoKind.responseCompleted)) := by
  refine ⟨by decide, by decide⟩

/-- C2 (amended): for the stream `"Hel"`, `"lo"`, `[DONE]`, exactly one
`response.completed` and exactly one `done` event are emitted, and the
accumulated text `"Hello"` appears in the `output_text.done`,
`content_part.done` and `output_item.done` events; the `response.completed`
event's own output item carries an empty content list. -/
theorem C2_amended :
    (helloRun.filter (fun e => e.kind == GoKind.responseCompleted)).length = 1 ∧
    (helloRun.filter (fun e => e.kind == GoKind.responseDone)).length = 1 ∧
    helloRun.filter (fun e => e.kind == GoKind.outputTextDone)
      = [GoEvent.outputTextDone 6 "msg_1" "Hello"] ∧
    helloRun.filter (fun e => e.kind == GoKind.contentPartDone)
      = [GoEvent.contentPartDone 7 "msg_1" "Hello"] ∧
    helloRun.filter (fun e => e.kind == GoKind.outputItemDone)
      = [GoEvent.outputItemDone 8
          { id := "msg_1", status := "completed", role := "assistant",
            contentTexts := ["Hello"] }] ∧
    completedTexts (helloRun.filter (fun e => e.kind == GoKind.responseCompleted))
      = [] := by
  refine ⟨by decide, by decide, by decide, by decide, by decide, by decide⟩

/-! ## C4 — registry selection order -/

/-- C4 records a defect the code's own comments admit: `updateOrder` inserts
by position count without consulting the stored priorities of existing
entries, so the order is not the `(priority, registration order)` sort.
Failing input: register `A` with priority 10, then `B` with priority 5 (both
enabled, both supporting model `"m"`).  The code's order is `["A", "B"]` and
`GetByModel "m"` returns `A`, while the specified sort gives `["B", "A"]`
and would return `B`.  The priorities-1-and-2 sub-case of the claim does
hold in both registration orders. -/
theorem C4_code_bug_eval :
    (registerProvider (registerProvider emptyRegistry ⟨"A", ["m"]⟩ 10 true)
        ⟨"B", ["m"]⟩ 5 true).order = ["A", "B"] ∧
    getByModel (registerProvider (registerProvider emptyRegistry ⟨"A", ["m"]⟩ 10 true)
        ⟨"B", ["m"]⟩ 5 true) "m" = some ⟨"A", ["m"]⟩ ∧
    specSelectionOrder [("A", 10), ("B", 5)] = ["B", "A"] ∧
    (registerProvider (registerProvider emptyRegistry ⟨"P1", ["m"]⟩ 1 true)
        ⟨"P2", ["m"]⟩ 2 true).order = ["P1", "P2"] ∧
    (registerProvider (registerProvider emptyRegistry ⟨"P2", ["m"]⟩ 2 true)
        ⟨"P1", ["m"]⟩ 1 true).order = ["P1", "P2"] ∧
    getByModel (registerProvider (registerProvider emptyRegistry ⟨"P2", ["m"]⟩ 2 true)
        ⟨"P1", ["m"]⟩ 1 true) "m" = some ⟨"P1", ["m"]⟩ := by
  refine ⟨by decide, by decide, by decide, by decide, by decide, by decide⟩

/-! ## C10 — health check -/

/-- C10: any HTTP response from the probe — regardless of status, including
5xx — makes `HealthCheck` reset the consecutive-failure counter to 0, mark
the adapter healthy and overwrite the average-latency metric with the raw
probe latency (not an exponential moving average); it reports an error and
marks the adapter unhealthy exactly when the client is uninitialized, the
request cannot be created, or the transport fails. -/
theorem C10_health_check :
    (∀ (s : Nat) (lat : Int) (m : ProviderMetricsM),
      healthCheck true (.response s) lat m
        = ({ m with
              consecutiveFail := 0,
              healthStatus := .healthy,
              averageLatency := lat }, none)) ∧
    (∀ (ci : Bool) (o : ProbeOutcome) (lat : Int) (m : ProviderMetricsM),
      (healthCheck ci o lat m).2 ≠ none ↔
        (ci = false ∨ o = .createError ∨ o = .transportError)) ∧
    (∀ (ci : Bool) (o : ProbeOutcome) (lat : Int) (m : ProviderMetricsM),
      (healthCheck ci o lat m).1.healthStatus = .unhealthy ↔
        (ci = false ∨ o = .createError ∨ o = .transportError)) := by
  refine ⟨?_, ?_, ?_⟩
  · intro s lat m
    rfl
  · intro ci o lat m
    cases ci <;> cases o <;> simp [healthCheck]
  · intro ci o lat m
    cases ci <;> cases o <;> simp [healthCheck]

/-! ## C7 — tool-call argument accumulation -/

theorem tcGet_set_self (m : List (Nat × TCAcc)) (i : Nat) (a : TCAcc) :
    tcGet (tcSet m i a) i = some a := by
  induction m with
  | nil => simp [tcGet, tcSet]
  | cons kv rest ih =>
    obtain ⟨k, v⟩ := kv
    by_cases hk : k = i
    · simp [tcGet, tcSet, hk]
    · simp [tcGet, tcSet, hk, ih]

theorem tcGet_set_other (m : List (Nat × TCAcc)) (i j : Nat) (a : TCAcc)
    (h : i ≠ j) : tcGet (tcSet m j a) i = tcGet m i := by
  induction m with
  | nil => simp [tcGet, tcSet, Ne.symm h]
  | cons kv rest ih =>
    obtain ⟨k, v⟩ := kv
    by_cases hk : k = j
    · subst hk
      simp [tcGet, tcSet, Ne.symm h]
    · simp only [tcSet, hk, if_false]
      by_cases hki : k = i <;> simp [tcGet, hki, ih]

theorem truthy_false_getD (o : Option String) (h : truthy o = false) :
    o.getD "" = "" := by
  cases o with
  | none => rfl
  | some s =>
    simp [truthy] at h
    simp [h]

theorem transformToolCallDelta_args (st : TSState) (tc : ToolCallDeltaT)
    (i : Nat) :
    argsAt i (transformToolCallDelta st tc).1
      = if tc.index = i then
          argsAt i st ++ (tc.fn.bind FnDeltaT.arguments).getD ""
        else argsAt i st := by
  have hmap : (transformToolCallDelta st tc).1.currentToolCalls
      = tcSet st.currentToolCalls tc.index
          (let acc0 := (tcGet st.currentToolCalls tc.index).getD ⟨"", "", ""⟩
           let acc1 := if truthy tc.id then
               { acc0 with id := generateCallId (tc.id.getD "") } else acc0
           let acc2 := if truthy (tc.fn.bind FnDeltaT.name) then
               { acc1 with name := (tc.fn.bind FnDeltaT.name).getD "" } else acc1
           if truthy (tc.fn.bind FnDeltaT.arguments) then
             { acc2 with arguments :=
                 acc2.arguments ++ (tc.fn.bind FnDeltaT.arguments).getD "" }
           else acc2) := by
    unfold transformToolCallDelta
    by_cases h : truthy (tc.fn.bind FnDeltaT.name) || truthy (tc.fn.bind FnDeltaT.arguments) <;>
      simp [h]
  by_cases hi : tc.index = i
  · subst hi
    simp only [argsAt, hmap, tcGet_set_self, Option.getD_some]
    by_cases h1 : truthy tc.id <;>
      by_cases h2 : truthy (tc.fn.bind FnDeltaT.name) <;>
        by_cases h3 : truthy (tc.fn.bind FnDeltaT.arguments) <;>
          simp [h1, h2, h3, truthy_false_getD, String.append_empty, if_pos rfl]
  · simp only [argsAt, hmap, tcGet_set_other _ _ _ _ (fun hc => hi hc.symm), hi,
      if_false]

theorem applyToolCallDeltas_args (tcs : List ToolCallDeltaT) :
    ∀ (st : TSState) (i : Nat),
    argsAt i (applyToolCallDeltas st tcs).1
      = argsAt i st ++ String.join (fragmentsAt i tcs) := by
  induction tcs with
  | nil =>
    intro st i
    simp [applyToolCallDeltas, fragmentsAt, String.join, String.append_empty]
  | cons tc tcs ih =>
    intro st i
    have hfst : (applyToolCallDeltas st (tc :: tcs)).1
        = (applyToolCallDeltas (transformToolCallDelta st tc).1 tcs).1 := rfl
    rw [hfst, ih, transformToolCallDelta_args]
    by_cases hi : tc.index = i
    · simp [fragmentsAt, hi, strJoin_cons, String.append_assoc]
    · simp [fragmentsAt, hi]

/-- C7: tool-call argument fragments for a given index are concatenated in
delta-arrival order and never reordered — over any run of the tool-call delta
loop, the accumulated arguments at index `i` are the previous accumulation
followed by the arriving fragments for `i` joined in order; and on the
concrete stream (role chunk, then id `call_abc123` with name and the fragment
`{"location":`, then the fragment `"Paris"}`, then `finish_reason:
"tool_calls"`), the finalized completed event carries exactly the
function-call content `{"location":"Paris"}` under id `fc_abc123`. -/
theorem C7_tool_call_accumulation :
    (∀ (st : TSState) (tcs : List ToolCallDeltaT) (i : Nat),
      argsAt i (applyToolCallDeltas st tcs).1
        = argsAt i st ++ String.join (fragmentsAt i tcs)) ∧
    tcRun.filter isCompletedTS
      = [TSEvent.responseCompleted
          { id := "resp_chatcmpl-1", created_at := 1, status := "completed",
            model := "glm-5",
            output := [{ id := "msg_m1", status := "completed",
                         role := "assistant",
                         content := [TSContent.functionCall "fc_abc123"
                           "get_weather" "\x7b\"location\":\"Paris\"\x7d"] }] }] :=
  ⟨fun st tcs i => applyToolCallDeltas_args tcs st i, by decide⟩

/-! ## C9 — request validation and field omission -/

theorem validate_pos_iff (req : ResponsesRequestT) :
    0 < (validateResponsesRequest req).length ↔
      (truthy req.model = false ∨ inputFalsy req.input = true ∨
       (∃ t, req.temperature = some t ∧ (t < 0 ∨ 2 < t)) ∨
       (∃ k, req.max_output_tokens = some k ∧ k < 1)) := by
  unfold validateResponsesRequest
  by_cases h1 : truthy req.model <;> by_cases h2 : inputFalsy req.input <;>
    cases ht : req.temperature with
    | none =>
      cases hk : req.max_output_tokens with
      | none => simp [h1, h2, ht, hk]
      | some k =>
        by_cases hkk : k < 1 <;> simp [h1, h2, ht, hk, hkk]
    | some t =>
      by_cases htt : t < 0 ∨ 2 < t <;>
        cases hk : req.max_output_tokens with
        | none => simp [h1, h2, ht, hk, htt]
        | some k =>
          by_cases hkk : k < 1 <;> simp [h1, h2, ht, hk, htt, hkk]

/-- The claim as stated is false: a request with both `model` and `input`
present but `temperature: 5` makes the strict-mode transformer fail, so
absence of `model`/`input` is not the only failure cause. -/
theorem C9_counterexample :
    transformRequest
      { model := some "glm-5", input := some (.str "hi"), instructions := none,
        temperature := some 5, max_output_tokens := none, top_p := none,
        stream := none, store := none, metadata := none, tools := none,
        tool_choice := none, parallel_tool_calls := none, text := none,
        effort := none }
      { strict := true, includeMetadata := false, modelMapping := [] }
      = .error "Request validation failed: Temperature must be between 0 and 2" := by
  rfl

/-- C9 (amended): the transformer never fails outside strict mode (even with
`model`/`input` absent); in strict mode it fails iff `model` is falsy,
`input` is falsy, `temperature` is present and outside `[0, 2]`, or
`max_output_tokens` is present and below 1; and whenever it succeeds, each
absent optional field is omitted from the backend request, never defaulted. -/
theorem C9_amended :
    (∀ (req : ResponsesRequestT) (im : Bool) (mm : List (String × String)),
      ∃ out, transformRequest req
        { strict := false, includeMetadata := im, modelMapping := mm } = .ok out) ∧
    (∀ (req : ResponsesRequestT) (im : Bool) (mm : List (String × String)),
      (∃ msg, transformRequest req
          { strict := true, includeMetadata := im, modelMapping := mm }
          = .error msg) ↔
        (truthy req.model = false ∨ inputFalsy req.input = true ∨
         (∃ t, req.temperature = some t ∧ (t < 0 ∨ 2 < t)) ∨
         (∃ k, req.max_output_tokens = some k ∧ k < 1))) ∧
    (∀ (req : ResponsesRequestT) (opts : TransformOptionsT)
       (out : ChatCompletionRequestT),
      transformRequest req opts = .ok out →
        ((req.temperature = none → out.temperature = none) ∧
         (req.max_output_tokens = none → out.max_completion_tokens = none) ∧
         (req.top_p = none → out.top_p = none) ∧
         (req.stream = none → out.stream = none) ∧
         (req.store = none → out.store = none) ∧
         (req.metadata = none → out.metadata = none) ∧
         (req.tools = none → out.tools = none) ∧
         (req.tool_choice = none → out.tool_choice = none) ∧
         (req.parallel_tool_calls = none → out.parallel_tool_calls = none) ∧
         (req.text = none → out.response_format = none) ∧
         (req.effort = none → out.reasoning_effort = none))) := by
  refine ⟨?_, ?_, ?_⟩
  · intro req im mm
    cases hE : transformRequest req
        { strict := false, includeMetadata := im, modelMapping := mm } with
    | error msg =>
      exfalso
      revert hE
      unfold transformRequest
      simp
    | ok out => exact ⟨out, rfl⟩
  · intro req im mm
    rw [← validate_pos_iff]
    unfold transformRequest
    by_cases h : 0 < (validateResponsesRequest req).length
    · simp [h]
    · simp [h]
  · intro req opts out h
    simp only [transformRequest] at h
    split_ifs at h
    all_goals
      first
      | exact Except.noConfusion h
      | (rw [Except.ok.injEq] at h
         subst h
         refine ⟨?_, ?_, ?_, ?_, ?_, ?_, ?_, ?_, ?_, ?_, ?_⟩ <;>
           · intro hx
             simp [hx])

theorem C9_amended_witness :
    transformRequest reqW optsW = Except.ok outW ∧
    ((reqW.temperature = none → outW.temperature = none) ∧
     (reqW.max_output_tokens = none → outW.max_completion_tokens = none) ∧
     (reqW.top_p = none → outW.top_p = none) ∧
     (reqW.stream = none → outW.stream = none) ∧
     (reqW.store = none → outW.store = none) ∧
     (reqW.metadata = none → outW.metadata = none) ∧
     (reqW.tools = none → outW.tools = none) ∧
     (reqW.tool_choice = none → outW.tool_choice = none) ∧
     (reqW.parallel_tool_calls = none → outW.parallel_tool_calls = none) ∧
     (reqW.text = none → outW.response_format = none) ∧
     (reqW.effort = none → outW.reasoning_effort = none)) :=
  ⟨rfl, C9_amended.2.2 reqW optsW outW rfl⟩
